import Mathlib

/-!
# libbitcoin-protocol web front-end

Shallow embedding of the web sources of libbitcoin-protocol:

* `src/src/web/socket.cpp`: the bridge between client connections and the
  backend bus (work map, correlation map, sequence counter);
* `src/src/web/websocket_frame.cpp`: the frame header codec;
* `src/src/web/connection.cpp`: the buffered `write`;
* `src/src/web/utilities.cpp`: the request parser `parse_http`.

Maps are association lists, strings are lists of characters, byte buffers are
lists of naturals, and machine words are naturals reduced modulo the word
size where the source can overflow. Every observable action of the bridge (a
write on a connection, a message put on the bus, a handler `decode` call) is
recorded as an `effect` in the order the source performs it.
-/

namespace LibbitcoinProtocol

/-! ## Maps -/

/-- Model of `std::unordered_map<K, V>` / `std::map<K, V>`: a list of entries. -/
abbrev map (K V : Type) := List (K × V)

/-- Lookup `m.find(key)`: `none` stands for `m.end()`. -/
def map_find {K V : Type} [DecidableEq K] : map K V → K → Option V
  | [], _ => none
  | (k, v) :: m, key => if k = key then some v else map_find m key

/-- Removal `m.erase(key)`. -/
def map_erase {K V : Type} [DecidableEq K] (m : map K V) (key : K) : map K V :=
  m.filter (fun e => decide (e.1 ≠ key))

/-- Assignment `m[key] = v`, also used for mutation through a reference to
the mapped value: the entry is overwritten in place, or created. -/
def map_set {K V : Type} [DecidableEq K] : map K V → K → V → map K V
  | [], key, v => [(key, v)]
  | (k, w) :: m, key, v => if k = key then (k, v) :: m else (k, w) :: map_set m key v

/-- Insertion `m.emplace(key, v)`: no effect when the key is present. -/
def map_emplace {K V : Type} [DecidableEq K] (m : map K V) (key : K) (v : V) : map K V :=
  match map_find m key with
  | some _ => m
  | none => (key, v) :: m

/-! ## Data model -/

/-- A `connection_ptr` is compared by identity: the address of the connection. -/
abbrev connection_ptr := Nat

/-- Increment of a `uint32_t`. -/
def increment32 (n : Nat) : Nat := (n + 1) % 2 ^ 32

/-- The `protocol_status` enumerators used by the bridge. -/
inductive protocol_status where
  | ok
  | bad_request
  | not_found
  | internal_server_error
  | service_unavailable
  deriving DecidableEq, Repr

/-- The `system::code` values the bridge produces or receives; `other` is any
further non-zero code carried by a backend reply. -/
inductive code where
  | success
  | http_invalid_request
  | http_method_not_found
  | http_internal_error
  | not_implemented
  | other (value : Nat)
  deriving DecidableEq, Repr

/-- The two JSON error renderings: `to_json(ec, id)` and `rpc::to_json(ec, id)`. -/
inductive json_error where
  | to_json (ec : code) (id : Nat)
  | rpc_to_json (ec : code) (id : Nat)
  deriving DecidableEq, Repr

/-- Text handed to `connection::write` by the bridge. `reply status error`
is `http_reply::generate(status, {}, error.size(), false) + error`;
`json error` is the bare JSON text; `status_only status` is
`http_reply::generate(status, {}, 0, false)`. -/
inductive written where
  | reply (status : protocol_status) (error : json_error)
  | json (error : json_error)
  | status_only (status : protocol_status)
  deriving DecidableEq, Repr

/-- Observable actions of the bridge. -/
inductive effect where
  | write (connection : connection_ptr) (data : written)
  | bus_send (request : List Nat)
  | decode (rpc : Bool) (method : String) (payload : List Nat) (id : Nat)
      (connection : connection_ptr)
  deriving DecidableEq, Repr

/-- The struct `query_work_item{ id, correlation_id, connection, command, arguments }`. -/
structure query_work_item where
  id : Nat
  correlation_id : Nat
  connection : connection_ptr
  command : String
  arguments : String
  deriving DecidableEq, Repr

/-- A registered handler: its bus command and its `encode`, which fails
(`none`) or yields the request message. The `decode` half is observed
through `effect.decode`. -/
structure handler where
  command : String
  encode : String → String → Nat → Option (List Nat)

abbrev handler_map := map String handler
abbrev query_work_map := map Nat query_work_item
abbrev connection_work_map := map connection_ptr query_work_map
abbrev query_correlation_map := map Nat (connection_ptr × Nat)

/-- The members of `socket` that the bridge operations read and write. -/
structure socket where
  handlers_ : handler_map
  rpc_handlers_ : handler_map
  work_ : connection_work_map
  correlations_ : query_correlation_map
  sequence_ : Nat

/-- State left by the constructor `socket::socket` once handlers are registered:
no work, no correlations, `sequence_(0)`. -/
def socket_new (handlers rpc_handlers : handler_map) : socket :=
  { handlers_ := handlers, rpc_handlers_ := rpc_handlers, work_ := [],
    correlations_ := [], sequence_ := 0 }

/-! ## Bridge operations -/

/-- The assertion at the head of `socket::add_connection`. -/
def add_connection_assert (self : socket) (connection : connection_ptr) : Bool :=
  (map_find self.work_ connection).isNone

/-- The method `socket::add_connection`: `work_[connection].clear()`. -/
def add_connection (self : socket) (connection : connection_ptr) : socket :=
  { self with work_ := map_set self.work_ connection [] }

/-- The loop of `socket::remove_connection`: erase the correlation of every work item. -/
def erase_correlations (correlations : query_correlation_map) (items : query_work_map) :
    query_correlation_map :=
  items.foldl (fun acc query_work => map_erase acc query_work.2.correlation_id) correlations

/-- The method `socket::remove_connection`. -/
def remove_connection (self : socket) (connection : connection_ptr) : socket :=
  if self.work_.isEmpty then self
  else
    match map_find self.work_ connection with
    | none => self
    | some items =>
      { self with
        correlations_ := erase_correlations self.correlations_ items,
        work_ := map_erase self.work_ connection }

/-- The lambda `send_error_reply` of `socket::notify_query_work`. -/
def send_error_reply (rpc : Bool) (connection : connection_ptr) (id : Nat)
    (status : protocol_status) (ec : code) : effect :=
  effect.write connection
    (written.reply status (if rpc then json_error.rpc_to_json ec id else json_error.to_json ec id))

/-- The method `socket::notify_query_work`. `json_rpc` gives the current
`json_rpc()` flag of each connection and `service_send` the result of
`service()->send(request)`. Returns the new state and the effects performed. -/
def notify_query_work (self : socket) (json_rpc : connection_ptr → Bool)
    (service_send : List Nat → code) (connection : connection_ptr) (method : String)
    (id : Nat) (parameters : String) : socket × List effect :=
  let rpc := json_rpc connection
  if self.handlers_.isEmpty || self.rpc_handlers_.isEmpty then
    (self, [send_error_reply rpc connection id protocol_status.service_unavailable
      code.http_invalid_request])
  else
    match map_find (if rpc then self.rpc_handlers_ else self.handlers_) method with
    | none =>
      (self, [send_error_reply rpc connection id protocol_status.not_found
        code.http_method_not_found])
    | some found =>
      match map_find self.work_ connection with
      | none => (self, [])
      | some items =>
        if (map_find items id).isSome then
          (self, [send_error_reply rpc connection id protocol_status.internal_server_error
            code.http_internal_error])
        else
          let emplaced : socket :=
            { self with
              work_ := map_set self.work_ connection
                (map_emplace items id
                  { id := id, correlation_id := self.sequence_, connection := connection,
                    command := method, arguments := parameters }) }
          match found.encode found.command parameters self.sequence_ with
          | none =>
            (emplaced, [send_error_reply rpc connection id protocol_status.bad_request
              code.http_invalid_request])
          | some request =>
            let correlated : socket :=
              { emplaced with
                correlations_ := map_set emplaced.correlations_ self.sequence_ (connection, id),
                sequence_ := increment32 self.sequence_ }
            if service_send request ≠ code.success then
              (correlated, [effect.bus_send request,
                send_error_reply rpc connection id protocol_status.internal_server_error
                  code.http_internal_error])
            else
              (correlated, [effect.bus_send request])

/-- The lambda `write_error` of `query_response_task_sender::run`. -/
def write_error (work : query_work_item) (ec : code) (id : Nat) (rpc : Bool) : effect :=
  effect.write work.connection
    (written.json (if rpc then json_error.rpc_to_json ec id else json_error.to_json ec id))

/-- The method `query_response_task_sender::run` for the task built by
`queue_response(sequence, data, _)`, with assertions compiled out.
`read_error_code` is the reader of the payload: the leading error code and
the bytes that follow it. Returns the new state, the effects and the result. -/
def run (self : socket) (json_rpc : connection_ptr → Bool)
    (read_error_code : List Nat → code × List Nat) (sequence_ : Nat) (data_ : List Nat) :
    socket × List effect × Bool :=
  match map_find self.correlations_ sequence_ with
  | none => (self, [], true)
  | some (connection, id) =>
    let erased : socket :=
      { self with correlations_ := map_erase self.correlations_ sequence_ }
    match map_find erased.work_ connection with
    | none => (erased, [], true)
    | some items =>
      match map_find items id with
      | none => (erased, [], true)
      | some work =>
        let done : socket :=
          { erased with work_ := map_set erased.work_ connection (map_erase items id) }
        let ec := (read_error_code data_).1
        if ec ≠ code.success then
          (done, [write_error work ec id (json_rpc connection)], true)
        else
          match map_find (if json_rpc connection then self.rpc_handlers_ else self.handlers_)
              work.command with
          | none =>
            (done, [write_error work code.not_implemented id (json_rpc connection)], true)
          | some _ =>
            (done, [effect.decode (json_rpc connection) work.command (read_error_code data_).2
              id work.connection], true)

/-- The three `BITCOIN_ASSERT`s of `query_response_task_sender::run`, evaluated
at the point the source reaches them (vacuously true when it returns earlier). -/
def run_asserts (self : socket) (sequence_ : Nat) : Bool :=
  match map_find self.correlations_ sequence_ with
  | none => true
  | some (connection, id) =>
    match map_find self.work_ connection with
    | none => true
    | some items =>
      match map_find items id with
      | none => true
      | some work =>
        decide (work.id = id) && decide (work.connection = connection) &&
          decide (work.correlation_id = sequence_)

/-- Bridge states reachable from a freshly constructed socket through the
four operations run on the web thread. `add_connection` is only called
where its assertion holds (a connection is accepted once). -/
inductive reachable : socket → Prop where
  | init (handlers rpc_handlers : handler_map) : reachable (socket_new handlers rpc_handlers)
  | add_connection (self : socket) (connection : connection_ptr) :
      reachable self → add_connection_assert self connection = true →
      reachable (add_connection self connection)
  | notify_query_work (self : socket) (json_rpc : connection_ptr → Bool)
      (service_send : List Nat → code) (connection : connection_ptr) (method : String)
      (id : Nat) (parameters : String) :
      reachable self →
      reachable (notify_query_work self json_rpc service_send connection method id parameters).1
  | run (self : socket) (json_rpc : connection_ptr → Bool)
      (read_error_code : List Nat → code × List Nat) (sequence_ : Nat) (data_ : List Nat) :
      reachable self → reachable (run self json_rpc read_error_code sequence_ data_).1
  | remove_connection (self : socket) (connection : connection_ptr) :
      reachable self → reachable (remove_connection self connection)

/-! ## Concrete bridges used to exercise the operations -/

/-- A handler whose `encode` succeeds and yields the sequence number as message. -/
def ping_handler : handler :=
  { command := "ping", encode := fun _ _ sequence => some [sequence] }

/-- A handler whose `encode` rejects every request. -/
def rejecting_handler : handler :=
  { command := "fetch", encode := fun _ _ _ => none }

/-- A registry with one encodable and one rejecting method. -/
def sample_handlers : handler_map :=
  [("ping", ping_handler), ("fetch", rejecting_handler)]

/-- A freshly constructed bridge that has accepted connection `1`. -/
def sample_socket : socket :=
  add_connection (socket_new sample_handlers sample_handlers) 1

/-- Every connection is a JSON-RPC connection. -/
def all_json_rpc : connection_ptr → Bool := fun _ => true

/-- Every connection is a websocket connection. -/
def all_websocket : connection_ptr → Bool := fun _ => false

/-- A backend bus that accepts every message. -/
def bus_up : List Nat → code := fun _ => code.success

/-- A backend bus whose send fails. -/
def bus_down : List Nat → code := fun _ => code.other 11

/-- A payload reader taking the first byte as error code. -/
def first_byte_reader : List Nat → code × List Nat
  | [] => (code.success, [])
  | 0 :: rest => (code.success, rest)
  | (n + 1) :: rest => (code.other (n + 1), rest)

/-- The work item `notify_query_work` emplaces. -/
def new_work_item (self : socket) (connection : connection_ptr) (method : String) (id : Nat)
    (parameters : String) : query_work_item :=
  { id := id, correlation_id := self.sequence_, connection := connection,
    command := method, arguments := parameters }

/-- The sample bridge after it has also accepted connection `2`. -/
def two_connections : socket := add_connection sample_socket 2

/-- The two-connection bridge after the websocket request `fetch` (id 3) on
connection `1`, whose encode fails, and the request `ping` (id 7) on connection `2`. -/
def crossed_socket : socket :=
  (notify_query_work
    (notify_query_work two_connections all_websocket bus_up 1 "fetch" 3 "a").1
    all_websocket bus_up 2 "ping" 7 "x").1

/-! ## Frame codec (`websocket_frame.cpp`) -/

/-- The constant `max_uint16` of libbitcoin-system. -/
def max_uint16 : Nat := 65535

/-- The constant `max_int32` of libbitcoin-system. -/
def max_int32 : Nat := 2147483647

/-- Modelled from the spec: the enumerator `websocket_op::text`, whose value
(RFC 6455 opcode 1) is declared in a header outside the sources. -/
def websocket_op_text : Nat := 1

/-- Modelled from the spec: the member constant `mask_` of `websocket_frame`,
the length of the masking key (4 on client frames). -/
def mask_ : Nat := 4

/-- Conversion `to_big_endian` of an unsigned integer of `width` bytes. -/
def to_big_endian : Nat → Nat → List Nat
  | 0, _ => []
  | width + 1, value => to_big_endian width (value / 256) ++ [value % 256]

/-- Conversion `from_big_endian` of a byte range. -/
def from_big_endian (bytes : List Nat) : Nat :=
  bytes.foldl (fun value byte => value * 256 + byte) 0

/-- The static method `websocket_frame::to_header`; `code` is the opcode byte. -/
def to_header (length : Nat) (code : Nat) : List Nat :=
  if length < 0x7e then
    [0x80 ||| (code % 256), length % 256]
  else if length < max_uint16 then
    [0x80 ||| (code % 256), 0x7e] ++ to_big_endian 2 (length % 2 ^ 16)
  else
    [0x80 ||| (code % 256), 0x7f] ++ to_big_endian 8 (length % 2 ^ 64)

/-- The members of `websocket_frame`. -/
structure websocket_frame where
  valid_ : Bool
  flags_ : Nat
  header_ : Nat
  data_ : Nat
  deriving DecidableEq, Repr

/-- The local constant named prefix in `from_data`. -/
def prefix_size : Nat := 2

/-- The local constant `prefix16`. -/
def prefix16 : Nat := prefix_size + 2

/-- The local constant `prefix64`. -/
def prefix64 : Nat := prefix_size + 8

/-- The method `websocket_frame::from_data`; `data[i]` is `data.getD i 0`. -/
def from_data (self : websocket_frame) (data : List Nat) (read_length : Nat) :
    websocket_frame :=
  if read_length < 2 || (data.getD 1 0 &&& 0x80) == 0 then self
  else
    let flagged : websocket_frame := { self with flags_ := data.getD 0 0 }
    let length := data.getD 1 0 &&& 0x7f
    let sized : websocket_frame :=
      if decide (read_length ≥ mask_) && decide (length < 0x7e) then
        { flagged with header_ := prefix_size + mask_, data_ := length }
      else if decide (read_length ≥ prefix16 + mask_) && decide (length = 0x7e) then
        { flagged with
          header_ := prefix16 + mask_,
          data_ := from_big_endian ((data.drop prefix_size).take 2) }
      else if read_length ≥ prefix64 + mask_ then
        { flagged with
          header_ := prefix64 + mask_,
          data_ := from_big_endian ((data.drop prefix_size).take 8) }
      else flagged
    { sized with valid_ := true }

/-- The constructor `websocket_frame::websocket_frame(data, size)`. -/
def websocket_frame.construct (data : List Nat) : websocket_frame :=
  from_data { valid_ := false, flags_ := 0, header_ := 0, data_ := 0 } data data.length

/-- The conversion `websocket_frame::operator bool`. -/
def websocket_frame.valid (self : websocket_frame) : Bool := self.valid_

/-- The method `websocket_frame::final`. -/
def websocket_frame.final (self : websocket_frame) : Bool := (self.flags_ &&& 0x80) != 0

/-- The method `websocket_frame::op_code`. -/
def websocket_frame.op_code (self : websocket_frame) : Nat := self.flags_ &&& 0x0f

/-- The method `websocket_frame::header_length`. -/
def websocket_frame.header_length (self : websocket_frame) : Nat := self.header_

/-- The method `websocket_frame::data_length`. -/
def websocket_frame.data_length (self : websocket_frame) : Nat := self.data_

/-- The method `websocket_frame::mask_length`. -/
def websocket_frame.mask_length (self : websocket_frame) : Nat :=
  if self.valid_ then mask_ else 0

/-- A server header turned into the header of a client frame: bit 7 of the
second byte set and a four-byte masking key appended. -/
def masked (header : List Nat) (key : List Nat) : List Nat :=
  match header with
  | first :: second :: rest => first :: (second ||| 0x80) :: rest ++ key
  | _ => header ++ key

/-! ## Connection (`connection.cpp`) -/

/-- The enumeration `connection_state`. -/
inductive connection_state where
  | unknown
  | listening
  | connected
  | ssl_handshake
  | websocket
  | closed
  deriving DecidableEq, Repr

/-- The members of `connection` read or written by `write` and `close`. -/
structure connection where
  state_ : connection_state
  websocket_ : Bool
  json_rpc_ : Bool
  write_buffer_ : List Nat
  deriving DecidableEq, Repr

/-- The constant `high_water_mark`. -/
def high_water_mark : Nat := 2 * 1024 * 1024

/-- The method `connection::write(data, length)`: the connection left and the
value returned. -/
def connection.write (self : connection) (data : List Nat) : connection × Int :=
  if data.length > max_int32 then (self, -1)
  else
    let header := if self.websocket_ then to_header data.length websocket_op_text else []
    let buffer_size := self.write_buffer_.length + header.length + data.length
    if buffer_size > high_water_mark then (self, (data.length : Int))
    else ({ self with write_buffer_ := self.write_buffer_ ++ header ++ data }, (data.length : Int))

/-- The method `connection::close`, as far as the modelled members go. -/
def connection.close (self : connection) : connection :=
  if self.state_ = connection_state.closed then self
  else { self with state_ := connection_state.closed }

/-- A run of `write` calls; each call comes with the websocket flag in force. -/
def write_all (self : connection) (calls : List (Bool × List Nat)) : connection :=
  calls.foldl (fun current call => ({ current with websocket_ := call.1 }.write call.2).1) self

/-- A websocket connection in state `closed` with nothing buffered. -/
def closed_connection : connection :=
  { state_ := connection_state.closed, websocket_ := true, json_rpc_ := false,
    write_buffer_ := [] }

/-- A plain HTTP connection in state `connected` with nothing buffered. -/
def fresh_connection : connection :=
  { state_ := connection_state.connected, websocket_ := false, json_rpc_ := false,
    write_buffer_ := [] }

/-! ## HTTP request parser (`utilities.cpp`) -/

/-- A `std::string`: the list of its characters. -/
abbrev std_string := List Char

/-- The map type `string_map`. -/
abbrev string_map := map std_string std_string

/-- A `boost::property_tree::ptree`: the data of the node and its ordered children. -/
inductive ptree where
  | node (value : std_string) (children : List (std_string × ptree))

/-- The default-constructed `ptree`. -/
def ptree.empty : ptree := ptree.node [] []

/-- Classification `std::isspace` in the "C" locale, used by `boost::algorithm::trim`. -/
def is_space (c : Char) : Bool :=
  c = ' ' || c = '\t' || c = '\n' || c = '\x0b' || c = '\x0c' || c = '\r'

/-- The algorithm `boost::algorithm::trim`. -/
def trim (s : std_string) : std_string :=
  ((s.dropWhile is_space).reverse.dropWhile is_space).reverse

/-- The algorithm `boost::algorithm::to_lower`. -/
def to_lower (s : std_string) : std_string := s.map Char.toLower

/-- The predicate `boost::is_any_of(set)`. -/
def is_any_of (set : std_string) (c : Char) : Bool := set.contains c

/-- The algorithm `boost::split(result, input, is_delimiter)` without token
compression: a cut at every delimiter, empty tokens kept. -/
def split (is_delimiter : Char → Bool) : std_string → List std_string
  | [] => [[]]
  | c :: rest =>
    if is_delimiter c then [] :: split is_delimiter rest
    else
      match split is_delimiter rest with
      | [] => [[c]]
      | token :: tokens => (c :: token) :: tokens

/-- Test whether `pattern` occurs at the start of `s`. -/
def starts_with : std_string → std_string → Bool
  | _, [] => true
  | [], _ :: _ => false
  | c :: s, p :: pattern => c == p && starts_with s pattern

/-- The method `std::string::find(pattern)`; `none` is `npos`. -/
def string_find : std_string → std_string → Option Nat
  | [], pattern => if pattern.isEmpty then some 0 else none
  | c :: s, pattern =>
    if starts_with (c :: s) pattern then some 0
    else (string_find s pattern).map (fun position => position + 1)

/-- The members of `http_request`. -/
structure http_request where
  method : std_string
  uri : std_string
  protocol : std_string
  protocol_version : Rat
  message_length : Nat
  content_length : Nat
  headers : string_map
  parameters : string_map
  upgrade_request : Bool
  json_rpc : Bool
  json_tree : ptree

/-- Functions of the C library and of libbitcoin-system called by `parse_http`:
`strtod(text, nullptr)`, `strtoul(text, nullptr, 0)` and
`property_tree(tree, json)`, which reports success and leaves a tree. -/
structure externals where
  strtod : std_string → Rat
  strtoul : std_string → Nat
  property_tree : ptree → std_string → Bool × ptree

/-- The text `"\r\n"`. -/
def crlf : std_string := ['\r', '\n']

/-- The header name `"sec-websocket-key"`. -/
def sec_websocket_key : std_string := "sec-websocket-key".toList

/-- The lambda `parse_line` of `parse_http`. -/
def parse_line (headers : string_map) (line : std_string) : string_map :=
  if line.isEmpty then headers
  else
    let elements := split (is_any_of [':']) line
    if elements.length = 2 then
      let name := to_lower (trim (elements.getD 0 []))
      let value := trim (elements.getD 1 [])
      map_set headers name (if name ≠ sec_websocket_key then to_lower value else value)
    else if elements.length > 2 then
      let trimmed := trim (elements.getD 0 [])
      let name := if trimmed ≠ sec_websocket_key then to_lower trimmed else trimmed
      let values := elements.tail.map (fun element =>
        if name ≠ sec_websocket_key then to_lower (trim element) else trim element)
      map_set headers name ([':'].intercalate values)
    else headers

/-- The lambda `parse_parameter` of `parse_http`. -/
def parse_parameter (parameters : string_map) (line : std_string) : string_map :=
  if line.isEmpty then parameters
  else
    let input_line :=
      match string_find line [' '] with
      | none => line
      | some line_end => line.take line_end
    let elements := split (is_any_of ['=', ' ']) input_line
    if elements.length = 2 then
      map_set parameters (to_lower (trim (elements.getD 0 [])))
        (to_lower (trim (elements.getD 1 [])))
    else parameters

/-- The request-line step of `parse_http`: trim the three elements, cut the
target at its first `?`, lower-case method and protocol, and hand the protocol
from its first `/` on to `strtod`. -/
def parse_request_line (env : externals) (out : http_request) (elements : List std_string) :
    http_request :=
  let target := trim (elements.getD 1 [])
  let uri :=
    match string_find target ['?'] with
    | some cut => target.take cut
    | none => target
  let named : http_request :=
    { out with
      method := to_lower (trim (elements.getD 0 [])),
      uri := uri,
      protocol := to_lower (trim (elements.getD 2 [])) }
  match string_find named.protocol ['/'] with
  | some slash => { named with protocol_version := env.strtod (named.protocol.drop slash) }
  | none => named

/-- The header step of `parse_http`: the whole request is cut at every `\r` and
`\n` and each piece goes through `parse_line`. -/
def parse_headers (headers : string_map) (request : std_string) : string_map :=
  (split (is_any_of crlf) request).foldl parse_line headers

/-- The parameter step of `parse_http`: what follows the first `?` of the
method line is cut at every `&` and each piece goes through `parse_parameter`. -/
def parse_parameters (parameters : string_map) (method_line : std_string) : string_map :=
  match string_find method_line ['?'] with
  | some mark =>
    (split (is_any_of ['&']) (method_line.drop (mark + 1))).foldl parse_parameter parameters
  | none => parameters

/-- The function `parse_http`. The result is `none` when `std::string::substr`
throws `std::out_of_range`, else the value returned and the request left in
`out`. Sizes are `size_t` of 64 bits. -/
def parse_http (env : externals) (out : http_request) (request : std_string) :
    Option (Bool × http_request) :=
  let sized : http_request := { out with message_length := request.length }
  match string_find request crlf with
  | none => some (false, sized)
  | some position =>
    let method_line := request.take position
    let elements := split (is_any_of [' ']) method_line
    if elements.length ≠ 3 then some (false, sized)
    else
      let versioned := parse_request_line env sized elements
      let headers := parse_headers versioned.headers request
      let parameters := parse_parameters versioned.parameters method_line
      let content_length :=
        match map_find headers "content-length".toList with
        | some value => env.strtoul value % 2 ^ 64
        | none => 0
      let upgrade_request :=
        match map_find headers "connection".toList with
        | some value =>
          (string_find value "upgrade".toList).isSome &&
            (map_find headers sec_websocket_key).isSome
        | none => false
      let classified : http_request :=
        { versioned with
          headers := headers,
          parameters := parameters,
          content_length := content_length,
          upgrade_request := upgrade_request }
      if classified.method = "post".toList ∧ classified.content_length > 0 then
        let start := (request.length + 2 ^ 64 - classified.content_length) % 2 ^ 64
        if start > request.length then none
        else
          let json_request := (request.drop start).take classified.content_length
          let parsed := env.property_tree classified.json_tree json_request
          some (true, { classified with json_rpc := parsed.1, json_tree := parsed.2 })
      else some (true, classified)

/-- A default-constructed request, every member empty, zero or false. -/
def http_request_new : http_request :=
  { method := [], uri := [], protocol := [], protocol_version := 0, message_length := 0,
    content_length := 0, headers := [], parameters := [], upgrade_request := false,
    json_rpc := false, json_tree := ptree.empty }

/-- Stand-ins for the library functions: no number is ever recognised and no
text is JSON. -/
def sample_externals : externals :=
  { strtod := fun _ => 0, strtoul := fun _ => 0,
    property_tree := fun tree _ => (false, tree) }

/-- A GET request with one header line. -/
def sample_request : std_string := "GET / HTTP/1.1\r\nHost: Example.COM\r\n\r\n".toList

/-- The request left by `parse_http` for `sample_request`. -/
def sample_parsed : http_request :=
  ((parse_http sample_externals http_request_new sample_request).getD
    (false, http_request_new)).2

/-- The tokens of a line in the usual sense: the maximal runs of characters
that are not white space. -/
def tokens (line : std_string) : List std_string :=
  (split is_space line).filter (fun token => !token.isEmpty)

/-! ## Event handler and response pump (`socket.cpp`) -/

/-- The children of a tree node. -/
def ptree.children : ptree → List (std_string × ptree)
  | ptree.node _ children => children

/-- The data of a tree node, what `get_value<std::string>()` returns. -/
def ptree.get_value : ptree → std_string
  | ptree.node value _ => value

/-- The method `ptree::count(key)`: the number of children under the key. -/
def ptree.count (tree : ptree) (key : std_string) : Nat :=
  (tree.children.filter (fun child => decide (child.1 = key))).length

/-- The method `ptree::get_child(key)` for a key without path separator:
the first child under the key; `none` stands for the exception
`ptree_bad_path`. -/
def ptree.get_child (tree : ptree) (key : std_string) : Option ptree :=
  map_find tree.children key

/-- The call `tree.get<uint32_t>(key, 0)`; `to_uint32` is the stream
translator of the library, `none` when the text does not convert. -/
def ptree.get_uint32 (to_uint32 : std_string → Option Nat) (tree : ptree) (key : std_string) :
    Nat :=
  match tree.get_child key with
  | some child => (to_uint32 child.get_value).getD 0
  | none => 0

/-- The call `tree.get<std::string>(key, "")`. -/
def ptree.get_string (tree : ptree) (key : std_string) : std_string :=
  match tree.get_child key with
  | some child => child.get_value
  | none => []

/-- The enumeration `http::event`, each value with the data that comes with it:
the parsed request for `json_rpc`, the message text for `websocket_frame`. -/
inductive http_event where
  | accepted
  | json_rpc (request : http_request)
  | websocket_frame (message : std_string)
  | websocket_control_frame
  | read
  | closing
  | error

/-- The first element of the `params` list, or the empty string
(`parameter_list[0]` when the list is not empty). -/
def first_parameter (child : ptree) : std_string :=
  match child.children.map (fun parameter => parameter.2.get_value) with
  | [] => []
  | parameter :: _ => parameter

/-- The static method `socket::handle_event`, `self` being the instance reached
through `user_data()`. The result is `none` when `get_child` throws, else the
state left, the effects and the value returned. -/
def handle_event (self : socket) (env : externals) (to_uint32 : std_string → Option Nat)
    (json_rpc : connection_ptr → Bool) (service_send : List Nat → code)
    (connection : connection_ptr) (event : http_event) : Option (socket × List effect × Bool) :=
  match event with
  | http_event.accepted => some (add_connection self connection, [], true)
  | http_event.json_rpc request =>
    let id := request.json_tree.get_uint32 to_uint32 "id".toList
    let method := request.json_tree.get_string "method".toList
    if request.json_tree.count "params".toList = 0 then
      some (self,
        [effect.write connection (written.status_only protocol_status.bad_request)], false)
    else
      match request.json_tree.get_child "params".toList with
      | none => none
      | some child =>
        let notified := notify_query_work self json_rpc service_send connection
          (String.mk method) id (String.mk (first_parameter child))
        some (notified.1, notified.2, true)
  | http_event.websocket_frame message =>
    let parsed := env.property_tree ptree.empty message
    if !parsed.1 then
      some (self,
        [effect.write connection (written.status_only protocol_status.internal_server_error)],
        false)
    else
      let id := parsed.2.get_uint32 to_uint32 "id".toList
      let method := parsed.2.get_string "method".toList
      match parsed.2.get_child "params".toList with
      | none => none
      | some child =>
        let notified := notify_query_work self json_rpc service_send connection
          (String.mk method) id (String.mk (first_parameter child))
        some (notified.1, notified.2, true)
  | http_event.closing => some (remove_connection self connection, [], true)
  | http_event.read => some (self, [], true)
  | http_event.error => some (self, [], true)
  | http_event.websocket_control_frame => some (self, [], true)

/-- A queued reply task: the arguments of `queue_response`. -/
structure query_response_task where
  sequence_ : Nat
  data_ : List Nat
  command_ : String
  deriving DecidableEq, Repr

/-- The method `socket::queue_response` on the list `query_response_tasks_`. -/
def queue_response (query_response_tasks_ : List query_response_task) (sequence : Nat)
    (data : List Nat) (command : String) : List query_response_task :=
  query_response_tasks_ ++ [{ sequence_ := sequence, data_ := data, command_ := command }]

/-- The loop of `socket::send_query_responses` over the swapped-out list: it
stops and yields false at the first task whose `run` returns false. -/
def run_tasks (self : socket) (json_rpc : connection_ptr → Bool)
    (read_error_code : List Nat → code × List Nat) :
    List query_response_task → socket × List effect × Bool
  | [] => (self, [], true)
  | task :: rest =>
    let ran := run self json_rpc read_error_code task.sequence_ task.data_
    if !ran.2.2 then (ran.1, ran.2.1, false)
    else
      let later := run_tasks ran.1 json_rpc read_error_code rest
      (later.1, ran.2.1 ++ later.2.1, later.2.2)

/-- The method `socket::send_query_responses`: the task list is swapped for an
empty one and every task of the old list is run. Yields the state, the task
list left in the socket, the effects and the value returned. -/
def send_query_responses (self : socket) (query_response_tasks_ : List query_response_task)
    (json_rpc : connection_ptr → Bool) (read_error_code : List Nat → code × List Nat) :
    socket × List query_response_task × List effect × Bool :=
  let ran := run_tasks self json_rpc read_error_code query_response_tasks_
  (ran.1, [], ran.2.1, ran.2.2)

/-- Every task run once, in order, each on the state left by the one before:
the state reached and the effects in the order performed. -/
def run_in_order (self : socket) (json_rpc : connection_ptr → Bool)
    (read_error_code : List Nat → code × List Nat) :
    List query_response_task → socket × List effect
  | [] => (self, [])
  | task :: rest =>
    let ran := run self json_rpc read_error_code task.sequence_ task.data_
    let later := run_in_order ran.1 json_rpc read_error_code rest
    (later.1, ran.2.1 ++ later.2)

/-- A JSON tree with members `id` and `method` and no member `params`. -/
def tree_without_params : ptree :=
  ptree.node [] [("id".toList, ptree.node "7".toList []),
    ("method".toList, ptree.node "ping".toList [])]

/-- A parsed JSON-RPC request whose tree has no member `params`. -/
def request_without_params : http_request :=
  { http_request_new with json_rpc := true, json_tree := tree_without_params }

/-- A translator that reads nothing as a number. -/
def no_uint32 : std_string → Option Nat := fun _ => none

/-! ## Sample requests and library stand-ins -/

/-- The value of a run of decimal digits. -/
def digits_value (digits : std_string) : Nat :=
  digits.foldl (fun value c => value * 10 + (c.toNat - 48)) 0

/-- A stand-in for `strtoul` on decimal text: leading white space is skipped
and the digits that follow are read; 0 when there is none. -/
def decimal_strtoul (text : std_string) : Nat :=
  digits_value ((text.dropWhile is_space).takeWhile Char.isDigit)

/-- A stand-in for `strtod` on decimal text: leading white space is skipped,
then digits, an optional point and digits are read; 0 when no digit is found,
as `strtod` does when it can perform no conversion. -/
def decimal_strtod (text : std_string) : Rat :=
  let body := text.dropWhile is_space
  let whole := body.takeWhile Char.isDigit
  let fraction :=
    match body.dropWhile Char.isDigit with
    | '.' :: more => more.takeWhile Char.isDigit
    | _ => []
  if whole.isEmpty && fraction.isEmpty then 0
  else (digits_value whole : Rat) + (digits_value fraction : Rat) / 10 ^ fraction.length

/-- Library stand-ins that read decimal numbers and take a text for JSON when
it opens with a bracket. -/
def decimal_externals : externals :=
  { strtod := decimal_strtod, strtoul := decimal_strtoul,
    property_tree := fun tree text => (text.head? == some '[', tree) }

/-- A POST request with a three-byte body. -/
def post_request : std_string := "POST / HTTP/1.1\r\nContent-Length: 3\r\n\r\n[1]".toList

/-- The request left by `parse_http` for `post_request`. -/
def post_parsed : http_request :=
  ((parse_http decimal_externals http_request_new post_request).getD
    (false, http_request_new)).2

/-- An upgrade request. -/
def upgrade_request_text : std_string :=
  "GET /ws HTTP/1.1\r\nConnection: keep-alive, Upgrade\r\nSec-WebSocket-Key: AbC\r\n\r\n".toList

/-- The request left by `parse_http` for `upgrade_request_text`. -/
def upgrade_parsed : http_request :=
  ((parse_http sample_externals http_request_new upgrade_request_text).getD
    (false, http_request_new)).2

/-- A request whose header value holds a port after a second colon. -/
def port_request : std_string :=
  "GET / HTTP/1.1\r\nHost: Example.com:8080\r\n\r\n".toList

/-- The request left by `parse_http` for `port_request`. -/
def port_parsed : http_request :=
  ((parse_http sample_externals http_request_new port_request).getD
    (false, http_request_new)).2

/-- The query text `k1=v1&...&kn=vn` of a list of key/value pairs. -/
def query_string : List (std_string × std_string) → std_string
  | [] => []
  | [pair] => pair.1 ++ '=' :: pair.2
  | pair :: next :: rest => pair.1 ++ '=' :: pair.2 ++ '&' :: query_string (next :: rest)

/-- One pair put into a parameter map, key and value lower-cased. -/
def store_pair (parameters : string_map) (pair : std_string × std_string) : string_map :=
  map_set parameters (to_lower pair.1) (to_lower pair.2)

/-- A request with two query parameters. -/
def query_request : std_string := "GET /find?Name=Bob&Kind=X HTTP/1.1\r\n\r\n".toList

/-- The request left by `parse_http` for `query_request`. -/
def query_parsed : http_request :=
  ((parse_http sample_externals http_request_new query_request).getD
    (false, http_request_new)).2

/-- The text of a JSON object with members `id` and `method` only. -/
def message_without_params : std_string :=
  "\x7b\"id\":7,\"method\":\"ping\"\x7d".toList

/-- Library stand-ins whose JSON parser knows one text, `message_without_params`,
and yields its tree. -/
def object_externals : externals :=
  { strtod := decimal_strtod, strtoul := decimal_strtoul,
    property_tree := fun _ text =>
      if text = message_without_params then (true, tree_without_params)
      else (false, ptree.empty) }

/-- A GET request that ends with the blank line closing its header section. -/
def bodiless_request : std_string := "GET / HTTP/1.1\r\nHost: a\r\n\r\n".toList

/-- The same request followed by a body of three lines. -/
def bodied_request : std_string :=
  bodiless_request ++
    "Connection: upgrade\nSec-WebSocket-Key: k\nContent-Length: 7".toList

/-- A POST request announcing more content than the request holds. -/
def oversized_post : std_string := "POST / HTTP/1.1\r\nContent-Length: 999\r\n\r\n".toList

/-! ## Invariants of the correlation state -/

/-- Every correlation entry `seq -> (c, id)` has its work item `work[c][id]`,
whose fields are `id`, `c` and `seq`. -/
def correlation_invariant (self : socket) : Prop :=
  ∀ seq connection id, map_find self.correlations_ seq = some (connection, id) →
    ∃ items work, map_find self.work_ connection = some items ∧
      map_find items id = some work ∧
      work.id = id ∧ work.connection = connection ∧ work.correlation_id = seq

/-- Every work item has its `correlation_id` among the keys of the correlation map. -/
def work_correlated (self : socket) : Prop :=
  ∀ connection items id work, map_find self.work_ connection = some items →
    map_find items id = some work →
    (map_find self.correlations_ work.correlation_id).isSome = true

/-- The work map holds one entry per connection and, for each connection, one
work item per client id. -/
def one_item_per_id (self : socket) : Prop :=
  (self.work_.map Prod.fst).Nodup ∧ ∀ entry ∈ self.work_, (entry.2.map Prod.fst).Nodup

/-- No entry of either map refers to the connection. -/
def unreferenced (self : socket) (connection : connection_ptr) : Prop :=
  map_find self.work_ connection = none ∧
  ∀ seq id, map_find self.correlations_ seq ≠ some (connection, id)

/-! ## Map lemmas -/

theorem map_find_erase_self {K V : Type} [DecidableEq K] (m : map K V) (key : K) :
    map_find (map_erase m key) key = none := by
  induction m with
  | nil => rfl
  | cons e m ih =>
    obtain ⟨k, v⟩ := e
    by_cases h : k = key
    · simpa [map_erase, List.filter_cons, h] using ih
    · simpa [map_erase, List.filter_cons, h, map_find] using ih

theorem map_find_erase_ne {K V : Type} [DecidableEq K] (m : map K V) (key other : K)
    (hne : other ≠ key) : map_find (map_erase m key) other = map_find m other := by
  induction m with
  | nil => rfl
  | cons e m ih =>
    obtain ⟨k, v⟩ := e
    by_cases h : k = key
    · subst h
      simpa [map_erase, List.filter_cons, map_find, Ne.symm hne] using ih
    · by_cases hk : k = other
      · subst hk
        simp [map_erase, List.filter_cons, h, map_find]
      · simpa [map_erase, List.filter_cons, h, map_find, hk] using ih

theorem map_find_erase_some {K V : Type} [DecidableEq K] (m : map K V) (key other : K) (v : V)
    (h : map_find (map_erase m key) other = some v) :
    other ≠ key ∧ map_find m other = some v := by
  by_cases hne : other = key
  · subst hne
    rw [map_find_erase_self] at h
    cases h
  · exact ⟨hne, by rw [← map_find_erase_ne m key other hne]; exact h⟩

theorem map_find_set_self {K V : Type} [DecidableEq K] (m : map K V) (key : K) (v : V) :
    map_find (map_set m key v) key = some v := by
  induction m with
  | nil => simp [map_set, map_find]
  | cons e m ih =>
    obtain ⟨k, w⟩ := e
    by_cases h : k = key
    · simp [map_set, map_find, h]
    · simpa [map_set, map_find, h] using ih

theorem map_find_set_ne {K V : Type} [DecidableEq K] (m : map K V) (key other : K) (v : V)
    (hne : other ≠ key) : map_find (map_set m key v) other = map_find m other := by
  induction m with
  | nil =>
    have hk : key ≠ other := fun hk => hne hk.symm
    simp [map_set, map_find, hk]
  | cons e m ih =>
    obtain ⟨k, w⟩ := e
    by_cases h : k = key
    · subst h
      simp [map_set, map_find, Ne.symm hne]
    · by_cases hk : k = other
      · subst hk
        simp [map_set, map_find, h]
      · simpa [map_set, map_find, h, hk] using ih

theorem map_find_emplace_self {K V : Type} [DecidableEq K] (m : map K V) (key : K) (v : V)
    (habsent : map_find m key = none) : map_find (map_emplace m key v) key = some v := by
  simp [map_emplace, habsent, map_find]

theorem map_find_emplace_ne {K V : Type} [DecidableEq K] (m : map K V) (key other : K) (v : V)
    (hne : other ≠ key) : map_find (map_emplace m key v) other = map_find m other := by
  unfold map_emplace
  cases hf : map_find m key with
  | some w => rfl
  | none =>
    have hk : key ≠ other := fun hk => hne hk.symm
    simp [map_find, hk]

theorem map_find_mem {K V : Type} [DecidableEq K] (m : map K V) (key : K) (v : V)
    (h : map_find m key = some v) : (key, v) ∈ m := by
  induction m with
  | nil => cases h
  | cons e m ih =>
    obtain ⟨k, w⟩ := e
    by_cases hk : k = key
    · simp [map_find, hk] at h
      simp [hk, h]
    · simp [map_find, hk] at h
      exact List.mem_cons_of_mem _ (ih h)

theorem erase_correlations_none (items : query_work_map) (correlations : query_correlation_map)
    (seq : Nat) (h : map_find correlations seq = none) :
    map_find (erase_correlations correlations items) seq = none := by
  induction items generalizing correlations with
  | nil => simpa [erase_correlations] using h
  | cons e items ih =>
    have step : map_find (map_erase correlations e.2.correlation_id) seq = none := by
      by_cases hk : seq = e.2.correlation_id
      · rw [hk]; exact map_find_erase_self _ _
      · rw [map_find_erase_ne _ _ _ hk]; exact h
    simpa [erase_correlations] using ih _ step

theorem erase_correlations_erased (items : query_work_map) (correlations : query_correlation_map)
    (id : Nat) (work : query_work_item) (hmem : (id, work) ∈ items) :
    map_find (erase_correlations correlations items) work.correlation_id = none := by
  induction items generalizing correlations with
  | nil => cases hmem
  | cons e items ih =>
    rcases List.mem_cons.mp hmem with heq | htail
    · have := erase_correlations_none items (map_erase correlations e.2.correlation_id)
        work.correlation_id (by rw [← heq]; exact map_find_erase_self _ _)
      simpa [erase_correlations] using this
    · simpa [erase_correlations] using ih _ htail

theorem erase_correlations_some (items : query_work_map) (correlations : query_correlation_map)
    (seq : Nat) (entry : connection_ptr × Nat)
    (h : map_find (erase_correlations correlations items) seq = some entry) :
    map_find correlations seq = some entry := by
  induction items generalizing correlations with
  | nil => simpa [erase_correlations] using h
  | cons e items ih =>
    have h2 := ih (map_erase correlations e.2.correlation_id)
      (by simpa [erase_correlations] using h)
    exact (map_find_erase_some _ _ _ _ h2).2

theorem erase_correlations_kept (items : query_work_map) (correlations : query_correlation_map)
    (seq : Nat) (hkeep : ∀ e ∈ items, e.2.correlation_id ≠ seq) :
    map_find (erase_correlations correlations items) seq = map_find correlations seq := by
  induction items generalizing correlations with
  | nil => simp [erase_correlations]
  | cons e items ih =>
    have h1 := ih (map_erase correlations e.2.correlation_id)
      (fun x hx => hkeep x (List.mem_cons_of_mem _ hx))
    have h2 := map_find_erase_ne correlations e.2.correlation_id seq
      (fun hx => hkeep e (List.mem_cons_self _ _) hx.symm)
    simpa [erase_correlations, h2] using h1

/-! ## Shape of the state after each operation -/

theorem notify_query_work_state (self : socket) (json_rpc : connection_ptr → Bool)
    (service_send : List Nat → code) (connection : connection_ptr) (method : String)
    (id : Nat) (parameters : String) :
    (notify_query_work self json_rpc service_send connection method id parameters).1 = self ∨
    ∃ items, map_find self.work_ connection = some items ∧ map_find items id = none ∧
      ((notify_query_work self json_rpc service_send connection method id parameters).1 =
          { self with
            work_ := map_set self.work_ connection
              (map_emplace items id (new_work_item self connection method id parameters)) } ∨
       (notify_query_work self json_rpc service_send connection method id parameters).1 =
          { self with
            work_ := map_set self.work_ connection
              (map_emplace items id (new_work_item self connection method id parameters)),
            correlations_ := map_set self.correlations_ self.sequence_ (connection, id),
            sequence_ := increment32 self.sequence_ }) := by
  unfold notify_query_work
  simp only []
  split
  · exact Or.inl rfl
  · split
    · exact Or.inl rfl
    · split
      · exact Or.inl rfl
      · rename_i items hitems
        split
        · exact Or.inl rfl
        · rename_i hfresh
          have hnone : map_find items id = none := by
            cases hf : map_find items id with
            | none => rfl
            | some w => simp [hf] at hfresh
          refine Or.inr ⟨items, hitems, hnone, ?_⟩
          split
          · exact Or.inl rfl
          · split
            · exact Or.inr rfl
            · exact Or.inr rfl

theorem registries_loaded (self : socket) (hws : self.handlers_ ≠ [])
    (hrpc : self.rpc_handlers_ ≠ []) :
    (self.handlers_.isEmpty || self.rpc_handlers_.isEmpty) = false := by
  cases h1 : self.handlers_ with
  | nil => exact absurd h1 hws
  | cons a l =>
    cases h2 : self.rpc_handlers_ with
    | nil => exact absurd h2 hrpc
    | cons b k => rfl

theorem notify_query_work_sent (self : socket) (json_rpc : connection_ptr → Bool)
    (service_send : List Nat → code) (connection : connection_ptr) (method : String)
    (id : Nat) (parameters : String) (found : handler) (items : query_work_map)
    (request : List Nat)
    (hws : self.handlers_ ≠ []) (hrpc : self.rpc_handlers_ ≠ [])
    (hfound : map_find (if json_rpc connection then self.rpc_handlers_ else self.handlers_)
      method = some found)
    (hitems : map_find self.work_ connection = some items)
    (hfresh : map_find items id = none)
    (hencode : found.encode found.command parameters self.sequence_ = some request) :
    (notify_query_work self json_rpc service_send connection method id parameters).1 =
      { self with
        work_ := map_set self.work_ connection
          (map_emplace items id (new_work_item self connection method id parameters)),
        correlations_ := map_set self.correlations_ self.sequence_ (connection, id),
        sequence_ := increment32 self.sequence_ } := by
  have hreg := registries_loaded self hws hrpc
  unfold notify_query_work
  simp only [hreg, hfound, hitems, hfresh, hencode]
  by_cases hs : service_send request = code.success
  · simp [hs, new_work_item]
  · simp [hs, new_work_item]

theorem run_delivered (self : socket) (json_rpc : connection_ptr → Bool)
    (read_error_code : List Nat → code × List Nat) (sequence_ : Nat) (data_ : List Nat)
    (connection : connection_ptr) (id : Nat) (items : query_work_map) (work : query_work_item)
    (hcorr : map_find self.correlations_ sequence_ = some (connection, id))
    (hitems : map_find self.work_ connection = some items)
    (hwork : map_find items id = some work) :
    (run self json_rpc read_error_code sequence_ data_).1 =
      { self with
        correlations_ := map_erase self.correlations_ sequence_,
        work_ := map_set self.work_ connection (map_erase items id) } ∧
    (run self json_rpc read_error_code sequence_ data_).2.2 = true := by
  unfold run
  simp only [hcorr, hitems, hwork]
  split
  · exact ⟨rfl, rfl⟩
  · split
    · exact ⟨rfl, rfl⟩
    · exact ⟨rfl, rfl⟩

theorem run_state (self : socket) (json_rpc : connection_ptr → Bool)
    (read_error_code : List Nat → code × List Nat) (sequence_ : Nat) (data_ : List Nat) :
    (run self json_rpc read_error_code sequence_ data_).1 = self ∨
    ∃ connection id, map_find self.correlations_ sequence_ = some (connection, id) ∧
      ((run self json_rpc read_error_code sequence_ data_).1 =
          { self with correlations_ := map_erase self.correlations_ sequence_ } ∨
       ∃ items work, map_find self.work_ connection = some items ∧
          map_find items id = some work ∧
          (run self json_rpc read_error_code sequence_ data_).1 =
            { self with
              correlations_ := map_erase self.correlations_ sequence_,
              work_ := map_set self.work_ connection (map_erase items id) }) := by
  cases hcorr : map_find self.correlations_ sequence_ with
  | none => left; simp [run, hcorr]
  | some entry =>
    obtain ⟨connection, id⟩ := entry
    right
    refine ⟨connection, id, rfl, ?_⟩
    cases hitems : map_find self.work_ connection with
    | none => left; simp [run, hcorr, hitems]
    | some items =>
      cases hwork : map_find items id with
      | none => left; simp [run, hcorr, hitems, hwork]
      | some work =>
        right
        exact ⟨items, work, rfl, hwork,
          (run_delivered self json_rpc read_error_code sequence_ data_ connection id items work
            hcorr hitems hwork).1⟩

/-! ## The correlation invariant is inductive -/

theorem correlation_invariant_new (handlers rpc_handlers : handler_map) :
    correlation_invariant (socket_new handlers rpc_handlers) := by
  intro seq connection id h
  simp [socket_new, map_find] at h

theorem correlation_invariant_add_connection (self : socket) (connection : connection_ptr)
    (hinv : correlation_invariant self)
    (hassert : add_connection_assert self connection = true) :
    correlation_invariant (add_connection self connection) := by
  intro seq c id h
  obtain ⟨items, work, h1, h2, h3⟩ := hinv seq c id h
  have hne : c ≠ connection := by
    intro hc
    subst hc
    simp [add_connection_assert, h1] at hassert
  refine ⟨items, work, ?_, h2, h3⟩
  show map_find (map_set self.work_ connection []) c = some items
  rw [map_find_set_ne _ _ _ _ hne]; exact h1

theorem emplace_keeps_items (self : socket) (connection : connection_ptr) (id : Nat)
    (items : query_work_map) (fresh : query_work_item)
    (hitems : map_find self.work_ connection = some items)
    (hfresh : map_find items id = none)
    (c : connection_ptr) (key : Nat) (held : query_work_map) (work : query_work_item)
    (h1 : map_find self.work_ c = some held) (h2 : map_find held key = some work) :
    ∃ after, map_find (map_set self.work_ connection (map_emplace items id fresh)) c =
      some after ∧ map_find after key = some work := by
  by_cases hc : c = connection
  · subst hc
    have heq : held = items := Option.some.inj (h1.symm.trans hitems)
    subst heq
    have hk : key ≠ id := by
      intro hk
      subst hk
      rw [hfresh] at h2
      cases h2
    exact ⟨_, map_find_set_self _ _ _, by rw [map_find_emplace_ne _ _ _ _ hk]; exact h2⟩
  · exact ⟨held, by rw [map_find_set_ne _ _ _ _ hc]; exact h1, h2⟩

theorem correlation_invariant_notify_query_work (self : socket)
    (json_rpc : connection_ptr → Bool) (service_send : List Nat → code)
    (connection : connection_ptr) (method : String) (id : Nat) (parameters : String)
    (hinv : correlation_invariant self) :
    correlation_invariant
      (notify_query_work self json_rpc service_send connection method id parameters).1 := by
  rcases notify_query_work_state self json_rpc service_send connection method id parameters
    with hsame | ⟨items, hitems, hfresh, hemplaced | hcorrelated⟩
  · rw [hsame]; exact hinv
  · rw [hemplaced]
    intro seq c key h
    obtain ⟨held, work, h1, h2, h3⟩ := hinv seq c key h
    obtain ⟨after, h4, h5⟩ := emplace_keeps_items self connection id items
      (new_work_item self connection method id parameters) hitems hfresh c key held work h1 h2
    exact ⟨after, work, h4, h5, h3⟩
  · rw [hcorrelated]
    intro seq c key h
    by_cases hseq : seq = self.sequence_
    · subst hseq
      have hset : map_find (map_set self.correlations_ self.sequence_ (connection, id))
          self.sequence_ = some (connection, id) := map_find_set_self _ _ _
      have hpair : (c, key) = (connection, id) := Option.some.inj (h.symm.trans hset)
      obtain ⟨hc, hk⟩ := Prod.mk.inj hpair
      subst hc
      subst hk
      exact ⟨_, new_work_item self c method key parameters, map_find_set_self _ _ _,
        map_find_emplace_self _ _ _ hfresh, rfl, rfl, rfl⟩
    · have hold : map_find self.correlations_ seq = some (c, key) := by
        rw [← map_find_set_ne self.correlations_ self.sequence_ seq (connection, id) hseq]
        exact h
      obtain ⟨held, work, h1, h2, h3⟩ := hinv seq c key hold
      obtain ⟨after, h4, h5⟩ := emplace_keeps_items self connection id items
        (new_work_item self connection method id parameters) hitems hfresh c key held work h1 h2
      exact ⟨after, work, h4, h5, h3⟩

theorem correlation_invariant_run (self : socket) (json_rpc : connection_ptr → Bool)
    (read_error_code : List Nat → code × List Nat) (sequence_ : Nat) (data_ : List Nat)
    (hinv : correlation_invariant self) :
    correlation_invariant (run self json_rpc read_error_code sequence_ data_).1 := by
  rcases run_state self json_rpc read_error_code sequence_ data_
    with hsame | ⟨connection, id, hcorr, herased | ⟨items, work, hitems, hwork, hdone⟩⟩
  · rw [hsame]; exact hinv
  · rw [herased]
    intro seq c key h
    exact hinv seq c key (map_find_erase_some _ _ _ _ h).2
  · rw [hdone]
    intro seq c key h
    obtain ⟨hseq, hold⟩ := map_find_erase_some _ _ _ _ h
    obtain ⟨held, found, h1, h2, h3, h4, h5⟩ := hinv seq c key hold
    obtain ⟨held0, found0, g1, g2, _, _, g5⟩ := hinv sequence_ connection id hcorr
    by_cases hc : c = connection
    · subst hc
      have heq : held = items := Option.some.inj (h1.symm.trans hitems)
      subst heq
      have hk : key ≠ id := by
        intro hk
        subst hk
        have e0 : held0 = held := Option.some.inj (g1.symm.trans h1)
        subst e0
        have e1 : found0 = found := Option.some.inj (g2.symm.trans h2)
        subst e1
        exact hseq (h5.symm.trans g5)
      exact ⟨_, found, map_find_set_self _ _ _,
        by rw [map_find_erase_ne _ _ _ hk]; exact h2, h3, h4, h5⟩
    · refine ⟨held, found, ?_, h2, h3, h4, h5⟩
      show map_find (map_set self.work_ connection (map_erase items id)) c = some held
      rw [map_find_set_ne _ _ _ _ hc]; exact h1

theorem remove_connection_state (self : socket) (connection : connection_ptr) :
    (remove_connection self connection = self ∧ map_find self.work_ connection = none) ∨
    ∃ items, map_find self.work_ connection = some items ∧
      remove_connection self connection =
        { self with
          correlations_ := erase_correlations self.correlations_ items,
          work_ := map_erase self.work_ connection } := by
  unfold remove_connection
  cases hwork : self.work_ with
  | nil => left; simp [map_find]
  | cons e rest =>
    cases hitems : map_find (e :: rest) connection with
    | none => left; simp
    | some items => right; exact ⟨items, rfl, by simp⟩

theorem correlation_invariant_remove_connection (self : socket) (connection : connection_ptr)
    (hinv : correlation_invariant self) :
    correlation_invariant (remove_connection self connection) := by
  rcases remove_connection_state self connection with ⟨hsame, _⟩ | ⟨items, hitems, hstate⟩
  · rw [hsame]; exact hinv
  · rw [hstate]
    intro seq c key h
    have hold := erase_correlations_some items self.correlations_ seq (c, key) h
    obtain ⟨held, found, h1, h2, h3, h4, h5⟩ := hinv seq c key hold
    have hc : c ≠ connection := by
      intro hc
      subst hc
      have heq : held = items := Option.some.inj (h1.symm.trans hitems)
      subst heq
      have hgone := erase_correlations_erased held self.correlations_ key found
        (map_find_mem _ _ _ h2)
      rw [h5] at hgone
      have h' : map_find (erase_correlations self.correlations_ held) seq = some (c, key) := h
      rw [hgone] at h'
      cases h'
    refine ⟨held, found, ?_, h2, h3, h4, h5⟩
    show map_find (map_erase self.work_ connection) c = some held
    rw [map_find_erase_ne _ _ _ hc]; exact h1

theorem reachable_correlation_invariant (self : socket) (h : reachable self) :
    correlation_invariant self := by
  induction h with
  | init handlers rpc_handlers => exact correlation_invariant_new handlers rpc_handlers
  | add_connection self connection _ hassert ih =>
    exact correlation_invariant_add_connection self connection ih hassert
  | notify_query_work self json_rpc service_send connection method id parameters _ ih =>
    exact correlation_invariant_notify_query_work self json_rpc service_send connection method
      id parameters ih
  | run self json_rpc read_error_code sequence_ data_ _ ih =>
    exact correlation_invariant_run self json_rpc read_error_code sequence_ data_ ih
  | remove_connection self connection _ ih =>
    exact correlation_invariant_remove_connection self connection ih

theorem run_asserts_of_invariant (self : socket) (sequence_ : Nat)
    (hinv : correlation_invariant self) : run_asserts self sequence_ = true := by
  unfold run_asserts
  cases hcorr : map_find self.correlations_ sequence_ with
  | none => rfl
  | some entry =>
    obtain ⟨connection, id⟩ := entry
    obtain ⟨items, work, h1, h2, h3, h4, h5⟩ := hinv sequence_ connection id hcorr
    simp [h1, h2, h3, h4, h5]

/-! ## One work item per connection and client id -/

theorem map_find_none_not_key {K V : Type} [DecidableEq K] (m : map K V) (key : K)
    (h : map_find m key = none) : key ∉ m.map Prod.fst := by
  induction m with
  | nil => simp
  | cons e m ih =>
    obtain ⟨k, v⟩ := e
    by_cases hk : k = key
    · simp [map_find, hk] at h
    · simp only [map_find, hk, if_false] at h
      simp only [List.map_cons, List.mem_cons, not_or]
      exact ⟨fun heq => hk heq.symm, ih h⟩

theorem mem_map_set {K V : Type} [DecidableEq K] (m : map K V) (key : K) (v : V)
    (e : K × V) (h : e ∈ map_set m key v) : e ∈ m ∨ e = (key, v) := by
  induction m with
  | nil =>
    right
    simpa [map_set] using h
  | cons a m ih =>
    obtain ⟨k, w⟩ := a
    by_cases hk : k = key
    · subst hk
      simp only [map_set, if_true, List.mem_cons] at h
      rcases h with h | h
      · exact Or.inr h
      · exact Or.inl (List.mem_cons_of_mem _ h)
    · simp only [map_set, hk, if_false, List.mem_cons] at h
      rcases h with h | h
      · exact Or.inl (by rw [h]; exact List.mem_cons_self _ _)
      · rcases ih h with h' | h'
        · exact Or.inl (List.mem_cons_of_mem _ h')
        · exact Or.inr h'

theorem key_of_map_set {K V : Type} [DecidableEq K] (m : map K V) (key : K) (v : V) (x : K)
    (h : x ∈ (map_set m key v).map Prod.fst) : x = key ∨ x ∈ m.map Prod.fst := by
  obtain ⟨e, he, hx⟩ := List.mem_map.mp h
  rcases mem_map_set m key v e he with h1 | h1
  · exact Or.inr (List.mem_map.mpr ⟨e, h1, hx⟩)
  · left
    rw [← hx, h1]

theorem nodup_keys_map_set {K V : Type} [DecidableEq K] (m : map K V) (key : K) (v : V)
    (h : (m.map Prod.fst).Nodup) : ((map_set m key v).map Prod.fst).Nodup := by
  induction m with
  | nil => simp [map_set]
  | cons a m ih =>
    obtain ⟨k, w⟩ := a
    rw [List.map_cons, List.nodup_cons] at h
    by_cases hk : k = key
    · subst hk
      simp only [map_set, if_true, List.map_cons, List.nodup_cons]
      exact h
    · simp only [map_set, hk, if_false, List.map_cons, List.nodup_cons]
      refine ⟨?_, ih h.2⟩
      intro hmem
      rcases key_of_map_set m key v k hmem with h1 | h1
      · exact hk h1
      · exact h.1 h1

theorem nodup_keys_map_erase {K V : Type} [DecidableEq K] (m : map K V) (key : K)
    (h : (m.map Prod.fst).Nodup) : ((map_erase m key).map Prod.fst).Nodup :=
  List.Nodup.sublist (List.Sublist.map Prod.fst (List.filter_sublist m)) h

theorem nodup_keys_map_emplace {K V : Type} [DecidableEq K] (m : map K V) (key : K) (v : V)
    (h : (m.map Prod.fst).Nodup) : ((map_emplace m key v).map Prod.fst).Nodup := by
  unfold map_emplace
  cases hf : map_find m key with
  | some w => exact h
  | none =>
    simp only [List.map_cons, List.nodup_cons]
    exact ⟨map_find_none_not_key m key hf, h⟩

theorem one_item_per_id_set (self : socket) (connection : connection_ptr)
    (items : query_work_map) (hone : one_item_per_id self)
    (hitems : (items.map Prod.fst).Nodup) :
    (((map_set self.work_ connection items).map Prod.fst).Nodup) ∧
    ∀ entry ∈ map_set self.work_ connection items, (entry.2.map Prod.fst).Nodup := by
  refine ⟨nodup_keys_map_set _ _ _ hone.1, ?_⟩
  intro entry hmem
  rcases mem_map_set _ _ _ _ hmem with h | h
  · exact hone.2 entry h
  · rw [h]; exact hitems

theorem one_item_per_id_held (self : socket) (connection : connection_ptr)
    (items : query_work_map) (hone : one_item_per_id self)
    (hitems : map_find self.work_ connection = some items) : (items.map Prod.fst).Nodup :=
  hone.2 (connection, items) (map_find_mem _ _ _ hitems)

theorem reachable_one_item_per_id (self : socket) (h : reachable self) :
    one_item_per_id self := by
  induction h with
  | init handlers rpc_handlers =>
    exact ⟨List.nodup_nil, fun entry hmem => by simp [socket_new] at hmem⟩
  | add_connection self connection _ _ ih =>
    exact one_item_per_id_set self connection [] ih List.nodup_nil
  | notify_query_work self json_rpc service_send connection method id parameters _ ih =>
    rcases notify_query_work_state self json_rpc service_send connection method id parameters
      with hsame | ⟨items, hitems, _, hstate | hstate⟩
    · rw [hsame]; exact ih
    · rw [hstate]
      exact one_item_per_id_set self connection _ ih
        (nodup_keys_map_emplace _ _ _ (one_item_per_id_held self connection items ih hitems))
    · rw [hstate]
      exact one_item_per_id_set self connection _ ih
        (nodup_keys_map_emplace _ _ _ (one_item_per_id_held self connection items ih hitems))
  | run self json_rpc read_error_code sequence_ data_ _ ih =>
    rcases run_state self json_rpc read_error_code sequence_ data_
      with hsame | ⟨connection, id, _, herased | ⟨items, work, hitems, _, hdone⟩⟩
    · rw [hsame]; exact ih
    · rw [herased]; exact ih
    · rw [hdone]
      exact one_item_per_id_set self connection _ ih
        (nodup_keys_map_erase _ _ (one_item_per_id_held self connection items ih hitems))
  | remove_connection self connection _ ih =>
    rcases remove_connection_state self connection with ⟨hsame, _⟩ | ⟨items, _, hstate⟩
    · rw [hsame]; exact ih
    · rw [hstate]
      refine ⟨nodup_keys_map_erase _ _ ih.1, ?_⟩
      intro entry hmem
      exact ih.2 entry (List.mem_of_mem_filter hmem)

/-! ## Teardown -/

theorem unreferenced_of_invariant (self : socket) (connection : connection_ptr)
    (hinv : correlation_invariant self) (hnone : map_find self.work_ connection = none) :
    unreferenced self connection := by
  refine ⟨hnone, ?_⟩
  intro seq id h
  obtain ⟨items, _, h1, _⟩ := hinv seq connection id h
  rw [hnone] at h1
  cases h1

theorem remove_connection_work (self : socket) (connection : connection_ptr) :
    map_find (remove_connection self connection).work_ connection = none := by
  rcases remove_connection_state self connection with ⟨hsame, hnone⟩ | ⟨items, _, hstate⟩
  · rw [hsame]; exact hnone
  · rw [hstate]; exact map_find_erase_self _ _

theorem remove_connection_only_removes (self : socket) (connection : connection_ptr)
    (seq : Nat) (entry : connection_ptr × Nat)
    (h : map_find (remove_connection self connection).correlations_ seq = some entry) :
    map_find self.correlations_ seq = some entry := by
  rcases remove_connection_state self connection with ⟨hsame, _⟩ | ⟨items, _, hstate⟩
  · rw [hsame] at h; exact h
  · rw [hstate] at h
    exact erase_correlations_some items self.correlations_ seq entry h

/-! ## Request intake -/

/-- C1: a request that passes every check of `notify_query_work` (registries
loaded, method registered for the connection's kind, connection known, id
not outstanding, encode and bus send succeed) leaves `work[c][id]` with
`correlation_id = s`, `correlations[s] = (c, id)` and the counter at
`s + 1` modulo `2^32`, where `s` is the counter before the call; every other
entry of both maps is unchanged and the only effect is the bus send. On a
freshly constructed bridge that has just accepted `c`, `s` is `0`. -/
theorem notify_query_work_success (self : socket) (json_rpc : connection_ptr → Bool)
    (service_send : List Nat → code) (connection : connection_ptr) (method : String)
    (id : Nat) (parameters : String) (found : handler) (items : query_work_map)
    (request : List Nat)
    (hws : self.handlers_ ≠ []) (hrpc : self.rpc_handlers_ ≠ [])
    (hfound : map_find (if json_rpc connection then self.rpc_handlers_ else self.handlers_)
      method = some found)
    (hitems : map_find self.work_ connection = some items)
    (hfresh : map_find items id = none)
    (hencode : found.encode found.command parameters self.sequence_ = some request)
    (hsend : service_send request = code.success) :
    (∃ after, map_find
        (notify_query_work self json_rpc service_send connection method id parameters).1.work_
        connection = some after ∧
      map_find after id = some
        { id := id, correlation_id := self.sequence_, connection := connection,
          command := method, arguments := parameters } ∧
      ∀ other, other ≠ id → map_find after other = map_find items other) ∧
    map_find
      (notify_query_work self json_rpc service_send connection method id parameters).1.correlations_
      self.sequence_ = some (connection, id) ∧
    (notify_query_work self json_rpc service_send connection method id parameters).1.sequence_ =
      (self.sequence_ + 1) % 2 ^ 32 ∧
    (∀ c, c ≠ connection →
      map_find
        (notify_query_work self json_rpc service_send connection method id parameters).1.work_ c =
      map_find self.work_ c) ∧
    (∀ seq, seq ≠ self.sequence_ →
      map_find
        (notify_query_work self json_rpc service_send connection method id
          parameters).1.correlations_ seq =
      map_find self.correlations_ seq) ∧
    (notify_query_work self json_rpc service_send connection method id parameters).2 =
      [effect.bus_send request] ∧
    (∀ handlers rpc_handlers,
      self = add_connection (socket_new handlers rpc_handlers) connection →
      map_find
        (notify_query_work self json_rpc service_send connection method id
          parameters).1.correlations_ 0 = some (connection, id)) := by
  have hstate := notify_query_work_sent self json_rpc service_send connection method id
    parameters found items request hws hrpc hfound hitems hfresh hencode
  have hcorr : map_find
      (notify_query_work self json_rpc service_send connection method id parameters).1.correlations_
      self.sequence_ = some (connection, id) := by
    rw [hstate]; exact map_find_set_self _ _ _
  refine ⟨⟨map_emplace items id (new_work_item self connection method id parameters),
    ?_, ?_, ?_⟩, hcorr, ?_, ?_, ?_, ?_, ?_⟩
  · rw [hstate]; exact map_find_set_self _ _ _
  · exact map_find_emplace_self _ _ _ hfresh
  · intro other hne
    exact map_find_emplace_ne _ _ _ _ hne
  · rw [hstate]; rfl
  · intro c hne
    rw [hstate]; exact map_find_set_ne _ _ _ _ hne
  · intro seq hne
    rw [hstate]; exact map_find_set_ne _ _ _ _ hne
  · have hreg := registries_loaded self hws hrpc
    unfold notify_query_work
    simp [hreg, hfound, hitems, hfresh, hencode, hsend]
  · intro handlers rpc_handlers hself
    have hzero : self.sequence_ = 0 := by rw [hself]; rfl
    rw [← hzero]; exact hcorr

/-- Witness for C1: the JSON-RPC request `ping` with id 7 on the sample bridge
is recorded under sequence number 0. -/
theorem notify_query_work_success_witness :
    map_find (notify_query_work sample_socket all_json_rpc bus_up 1 "ping" 7 "x").1.correlations_
      0 = some (1, 7) ∧
    (notify_query_work sample_socket all_json_rpc bus_up 1 "ping" 7 "x").1.sequence_ = 1 :=
  have h := notify_query_work_success sample_socket all_json_rpc bus_up 1 "ping" 7 "x"
    ping_handler [] [0] (List.cons_ne_nil _ _) (List.cons_ne_nil _ _) rfl rfl rfl rfl rfl
  ⟨h.2.1, h.2.2.1⟩

/-- C2 (evaluation of the encode-failure path): on the sample bridge the
websocket request `fetch` with id 3 reaches `encode`, which fails. The
`bad_request` reply is written and the correlation map and the counter are
untouched, but the work item emplaced for the request is still in the work
map after the call, so a retry with the same id is refused as a duplicate. -/
theorem notify_query_work_encode_failure_keeps_work_item :
    (notify_query_work sample_socket all_websocket bus_up 1 "fetch" 3 "a").2 =
      [effect.write 1 (written.reply protocol_status.bad_request
        (json_error.to_json code.http_invalid_request 3))] ∧
    map_find sample_socket.work_ 1 = some [] ∧
    map_find (notify_query_work sample_socket all_websocket bus_up 1 "fetch" 3 "a").1.work_ 1 =
      some [(3, { id := 3, correlation_id := 0, connection := 1, command := "fetch",
                  arguments := "a" })] ∧
    (notify_query_work sample_socket all_websocket bus_up 1 "fetch" 3 "a").1.correlations_ = [] ∧
    (notify_query_work sample_socket all_websocket bus_up 1 "fetch" 3 "a").1.sequence_ = 0 ∧
    (notify_query_work
      (notify_query_work sample_socket all_websocket bus_up 1 "fetch" 3 "a").1
      all_websocket bus_up 1 "ping" 3 "a").2 =
      [effect.write 1 (written.reply protocol_status.internal_server_error
        (json_error.to_json code.http_internal_error 3))] := by
  decide

/-- C3 (evaluation of the send-failure path): on the sample bridge the JSON-RPC
request `ping` with id 7 is encoded and the bus send fails. The
`internal_server_error` reply is written after the send, and both the work
item `(1, 7)` and the correlation entry `0 -> (1, 7)` are still present after
the call, with the counter advanced to 1. -/
theorem notify_query_work_send_failure_keeps_entries :
    (notify_query_work sample_socket all_json_rpc bus_down 1 "ping" 7 "x").2 =
      [effect.bus_send [0],
       effect.write 1 (written.reply protocol_status.internal_server_error
        (json_error.rpc_to_json code.http_internal_error 7))] ∧
    map_find (notify_query_work sample_socket all_json_rpc bus_down 1 "ping" 7 "x").1.work_ 1 =
      some [(7, { id := 7, correlation_id := 0, connection := 1, command := "ping",
                  arguments := "x" })] ∧
    map_find
      (notify_query_work sample_socket all_json_rpc bus_down 1 "ping" 7 "x").1.correlations_ 0 =
      some (1, 7) ∧
    (notify_query_work sample_socket all_json_rpc bus_down 1 "ping" 7 "x").1.sequence_ = 1 := by
  decide

/-- C4: with both registries loaded and the method registered, a request whose
client id already has a work item on the connection writes the
`internal_server_error` reply carrying that id and leaves the work map (the
first work item included), the correlation map and the counter unchanged; in
every reachable state the work map keeps one item per connection and id. -/
theorem notify_query_work_duplicate_id (self : socket) (json_rpc : connection_ptr → Bool)
    (service_send : List Nat → code) (connection : connection_ptr) (method : String)
    (id : Nat) (parameters : String) (found : handler) (items : query_work_map)
    (work : query_work_item)
    (hws : self.handlers_ ≠ []) (hrpc : self.rpc_handlers_ ≠ [])
    (hfound : map_find (if json_rpc connection then self.rpc_handlers_ else self.handlers_)
      method = some found)
    (hitems : map_find self.work_ connection = some items)
    (hdup : map_find items id = some work) :
    (notify_query_work self json_rpc service_send connection method id parameters).2 =
      [effect.write connection (written.reply protocol_status.internal_server_error
        (if json_rpc connection then json_error.rpc_to_json code.http_internal_error id
          else json_error.to_json code.http_internal_error id))] ∧
    (notify_query_work self json_rpc service_send connection method id parameters).1.work_ =
      self.work_ ∧
    (notify_query_work self json_rpc service_send connection method id
      parameters).1.correlations_ = self.correlations_ ∧
    (notify_query_work self json_rpc service_send connection method id parameters).1.sequence_ =
      self.sequence_ ∧
    (∃ held,
      map_find
        (notify_query_work self json_rpc service_send connection method id parameters).1.work_
        connection = some held ∧
      map_find held id = some work) ∧
    (reachable self →
      one_item_per_id
        (notify_query_work self json_rpc service_send connection method id parameters).1) := by
  have hreg := registries_loaded self hws hrpc
  have hres : notify_query_work self json_rpc service_send connection method id parameters =
      (self, [send_error_reply (json_rpc connection) connection id
        protocol_status.internal_server_error code.http_internal_error]) := by
    unfold notify_query_work
    simp only [hreg, hfound, hitems, hdup]
    rfl
  rw [hres]
  exact ⟨rfl, rfl, rfl, rfl, ⟨items, hitems, hdup⟩, fun hreach =>
    reachable_one_item_per_id self hreach⟩

/-- Witness for C4: a second websocket request with id 3 while the first is in flight. -/
theorem notify_query_work_duplicate_id_witness :
    (notify_query_work (notify_query_work sample_socket all_websocket bus_up 1 "ping" 3 "a").1
      all_websocket bus_up 1 "ping" 3 "b").2 =
      [effect.write 1 (written.reply protocol_status.internal_server_error
        (json_error.to_json code.http_internal_error 3))] ∧
    (notify_query_work (notify_query_work sample_socket all_websocket bus_up 1 "ping" 3 "a").1
      all_websocket bus_up 1 "ping" 3 "b").1.correlations_ =
      (notify_query_work sample_socket all_websocket bus_up 1 "ping" 3 "a").1.correlations_ :=
  have h := notify_query_work_duplicate_id
    (notify_query_work sample_socket all_websocket bus_up 1 "ping" 3 "a").1
    all_websocket bus_up 1 "ping" 3 "b" ping_handler
    [(3, new_work_item sample_socket 1 "ping" 3 "a")] (new_work_item sample_socket 1 "ping" 3 "a")
    (List.cons_ne_nil _ _) (List.cons_ne_nil _ _) rfl rfl rfl
  ⟨h.1, h.2.2.1⟩

/-- C5: with both registries loaded, a method absent from the registry of the
connection's kind yields exactly one write, the `not_found` reply carrying
`http_method_not_found` and the client's id, and leaves the work map, the
correlation map and the counter as they were. -/
theorem notify_query_work_unknown_method (self : socket) (json_rpc : connection_ptr → Bool)
    (service_send : List Nat → code) (connection : connection_ptr) (method : String)
    (id : Nat) (parameters : String)
    (hws : self.handlers_ ≠ []) (hrpc : self.rpc_handlers_ ≠ [])
    (hmiss : map_find (if json_rpc connection then self.rpc_handlers_ else self.handlers_)
      method = none) :
    (notify_query_work self json_rpc service_send connection method id parameters).2 =
      [effect.write connection (written.reply protocol_status.not_found
        (if json_rpc connection then json_error.rpc_to_json code.http_method_not_found id
          else json_error.to_json code.http_method_not_found id))] ∧
    (notify_query_work self json_rpc service_send connection method id parameters).1.work_ =
      self.work_ ∧
    (notify_query_work self json_rpc service_send connection method id
      parameters).1.correlations_ = self.correlations_ ∧
    (notify_query_work self json_rpc service_send connection method id parameters).1.sequence_ =
      self.sequence_ := by
  have hreg := registries_loaded self hws hrpc
  unfold notify_query_work
  simp only [hreg, hmiss]
  exact ⟨rfl, rfl, rfl, rfl⟩

/-- Witness for C5: the websocket request `nope` with id 1 on the sample bridge. -/
theorem notify_query_work_unknown_method_witness :
    (notify_query_work sample_socket all_websocket bus_up 1 "nope" 1 "a").2 =
      [effect.write 1 (written.reply protocol_status.not_found
        (json_error.to_json code.http_method_not_found 1))] ∧
    (notify_query_work sample_socket all_websocket bus_up 1 "nope" 1 "a").1.work_ =
      sample_socket.work_ :=
  have h := notify_query_work_unknown_method sample_socket all_websocket bus_up 1 "nope" 1 "a"
    (List.cons_ne_nil _ _) (List.cons_ne_nil _ _) rfl
  ⟨h.1, h.2.1⟩

/-! ## Reply delivery -/

/-- C6: when `correlations[seq] = (c, id)` and `work[c][id]` exists, running the
reply task for `seq` removes the correlation entry `seq` and the work item
`work[c][id]` and nothing else: every other correlation entry, every other
work item and the counter are unchanged, and `run` returns true. -/
theorem run_removes_exactly (self : socket) (json_rpc : connection_ptr → Bool)
    (read_error_code : List Nat → code × List Nat) (sequence_ : Nat) (data_ : List Nat)
    (connection : connection_ptr) (id : Nat) (items : query_work_map) (work : query_work_item)
    (hcorr : map_find self.correlations_ sequence_ = some (connection, id))
    (hitems : map_find self.work_ connection = some items)
    (hwork : map_find items id = some work) :
    map_find (run self json_rpc read_error_code sequence_ data_).1.correlations_ sequence_ =
      none ∧
    (∀ seq, seq ≠ sequence_ →
      map_find (run self json_rpc read_error_code sequence_ data_).1.correlations_ seq =
        map_find self.correlations_ seq) ∧
    (∃ after,
      map_find (run self json_rpc read_error_code sequence_ data_).1.work_ connection =
        some after ∧
      map_find after id = none ∧
      ∀ other, other ≠ id → map_find after other = map_find items other) ∧
    (∀ c, c ≠ connection →
      map_find (run self json_rpc read_error_code sequence_ data_).1.work_ c =
        map_find self.work_ c) ∧
    (run self json_rpc read_error_code sequence_ data_).1.sequence_ = self.sequence_ ∧
    (run self json_rpc read_error_code sequence_ data_).2.2 = true := by
  obtain ⟨hstate, htrue⟩ := run_delivered self json_rpc read_error_code sequence_ data_
    connection id items work hcorr hitems hwork
  refine ⟨?_, ?_, ⟨map_erase items id, ?_, ?_, ?_⟩, ?_, ?_, htrue⟩
  · rw [hstate]; exact map_find_erase_self _ _
  · intro seq hne
    rw [hstate]; exact map_find_erase_ne _ _ _ hne
  · rw [hstate]; exact map_find_set_self _ _ _
  · exact map_find_erase_self _ _
  · intro other hne
    exact map_find_erase_ne _ _ _ hne
  · intro c hne
    rw [hstate]; exact map_find_set_ne _ _ _ _ hne
  · rw [hstate]

/-- Witness for C6: the reply to the `ping` request with id 7 on the sample bridge. -/
theorem run_removes_exactly_witness :
    map_find (run (notify_query_work sample_socket all_json_rpc bus_up 1 "ping" 7 "x").1
      all_json_rpc first_byte_reader 0 [0, 42]).1.correlations_ 0 = none ∧
    (run (notify_query_work sample_socket all_json_rpc bus_up 1 "ping" 7 "x").1
      all_json_rpc first_byte_reader 0 [0, 42]).2.2 = true :=
  have h := run_removes_exactly
    (notify_query_work sample_socket all_json_rpc bus_up 1 "ping" 7 "x").1
    all_json_rpc first_byte_reader 0 [0, 42] 1 7
    [(7, new_work_item sample_socket 1 "ping" 7 "x")] (new_work_item sample_socket 1 "ping" 7 "x")
    rfl rfl rfl
  ⟨h.1, h.2.2.2.2.2⟩

/-- C7: a reply whose sequence number is not a key of the correlation map is
dropped: no write, no handler `decode`, both maps unchanged, result true. -/
theorem run_unknown_sequence (self : socket) (json_rpc : connection_ptr → Bool)
    (read_error_code : List Nat → code × List Nat) (sequence_ : Nat) (data_ : List Nat)
    (habsent : map_find self.correlations_ sequence_ = none) :
    (run self json_rpc read_error_code sequence_ data_).2.1 = [] ∧
    (run self json_rpc read_error_code sequence_ data_).1.work_ = self.work_ ∧
    (run self json_rpc read_error_code sequence_ data_).1.correlations_ = self.correlations_ ∧
    (run self json_rpc read_error_code sequence_ data_).2.2 = true := by
  simp [run, habsent]

/-- Witness for C7: a reply for sequence number 9 on the sample bridge. -/
theorem run_unknown_sequence_witness :
    (run sample_socket all_websocket first_byte_reader 9 [0, 1]).2.1 = [] ∧
    (run sample_socket all_websocket first_byte_reader 9 [0, 1]).2.2 = true :=
  have h := run_unknown_sequence sample_socket all_websocket first_byte_reader 9 [0, 1] rfl
  ⟨h.1, h.2.2.2⟩

/-! ## Invariants over reachable states -/

/-- C8: in every reachable bridge state each correlation entry `seq -> (c, id)`
has its work item `work[c][id]`, whose fields are `id`, `c` and `seq`; hence
the three assertions of reply delivery hold for every sequence number. -/
theorem reachable_correlation_has_work (self : socket) (hreach : reachable self) :
    (∀ seq connection id, map_find self.correlations_ seq = some (connection, id) →
      ∃ items work, map_find self.work_ connection = some items ∧
        map_find items id = some work ∧
        work.id = id ∧ work.connection = connection ∧ work.correlation_id = seq) ∧
    ∀ sequence_, run_asserts self sequence_ = true :=
  ⟨reachable_correlation_invariant self hreach,
    fun sequence_ =>
      run_asserts_of_invariant self sequence_ (reachable_correlation_invariant self hreach)⟩

/-- Witness for C8: the sample bridge after one accepted request. -/
theorem reachable_correlation_has_work_witness :
    reachable (notify_query_work sample_socket all_json_rpc bus_up 1 "ping" 7 "x").1 ∧
    run_asserts (notify_query_work sample_socket all_json_rpc bus_up 1 "ping" 7 "x").1 0 = true :=
  have hreach : reachable (notify_query_work sample_socket all_json_rpc bus_up 1 "ping" 7 "x").1 :=
    reachable.notify_query_work sample_socket all_json_rpc bus_up 1 "ping" 7 "x"
      (reachable.add_connection _ 1 (reachable.init sample_handlers sample_handlers) rfl)
  ⟨hreach, (reachable_correlation_has_work _ hreach).2 0⟩

/-- C9 (evaluation): the state reached by accepting connection 1 and taking the
websocket request `fetch` with id 3, whose encode fails, holds the work item
`work[1][3]` with `correlation_id = 0` while the correlation map is empty. -/
theorem reachable_work_item_without_correlation :
    reachable (notify_query_work sample_socket all_websocket bus_up 1 "fetch" 3 "a").1 ∧
    ¬ work_correlated
      (notify_query_work sample_socket all_websocket bus_up 1 "fetch" 3 "a").1 := by
  refine ⟨reachable.notify_query_work sample_socket all_websocket bus_up 1 "fetch" 3 "a"
    (reachable.add_connection _ 1 (reachable.init sample_handlers sample_handlers) rfl), ?_⟩
  intro h
  have hbad := h 1 [(3, new_work_item sample_socket 1 "fetch" 3 "a")] 3
    (new_work_item sample_socket 1 "fetch" 3 "a") (by decide) (by decide)
  revert hbad
  decide

/-- C10: in every reachable state, after `remove_connection(c)` the work map has
no entry for `c` and no correlation entry names `c`. In particular, when a
request with id 5 on `c` has been recorded and `c` is then removed, a reply for
that request's sequence number is dropped with no effect and the state left
has no entry for `c` in either map. -/
theorem remove_connection_complete (self : socket) (connection : connection_ptr)
    (hreach : reachable self) :
    map_find (remove_connection self connection).work_ connection = none ∧
    (∀ seq id,
      map_find (remove_connection self connection).correlations_ seq ≠ some (connection, id)) ∧
    (∀ (json_rpc later_json_rpc : connection_ptr → Bool) (service_send : List Nat → code)
      (method parameters : String) (found : handler) (items : query_work_map)
      (request : List Nat) (read_error_code : List Nat → code × List Nat) (data_ : List Nat),
      self.handlers_ ≠ [] → self.rpc_handlers_ ≠ [] →
      map_find (if json_rpc connection then self.rpc_handlers_ else self.handlers_) method =
        some found →
      map_find self.work_ connection = some items →
      map_find items 5 = none →
      found.encode found.command parameters self.sequence_ = some request →
      run (remove_connection
          (notify_query_work self json_rpc service_send connection method 5 parameters).1
          connection) later_json_rpc read_error_code self.sequence_ data_ =
        (remove_connection
          (notify_query_work self json_rpc service_send connection method 5 parameters).1
          connection, [], true) ∧
      unreferenced (remove_connection
          (notify_query_work self json_rpc service_send connection method 5 parameters).1
          connection) connection) := by
  have hclean : ∀ state, reachable state →
      unreferenced (remove_connection state connection) connection := fun state hstate =>
    unreferenced_of_invariant _ connection
      (correlation_invariant_remove_connection state connection
        (reachable_correlation_invariant state hstate))
      (remove_connection_work state connection)
  refine ⟨(hclean self hreach).1, (hclean self hreach).2, ?_⟩
  intro json_rpc later_json_rpc service_send method parameters found items request
    read_error_code data_ hws hrpc hfound hitems hfresh hencode
  have hsent := hclean _
    (reachable.notify_query_work self json_rpc service_send connection method 5 parameters hreach)
  refine ⟨?_, hsent⟩
  have hstate := notify_query_work_sent self json_rpc service_send connection method 5
    parameters found items request hws hrpc hfound hitems hfresh hencode
  have hnone : map_find (remove_connection
      (notify_query_work self json_rpc service_send connection method 5 parameters).1
      connection).correlations_ self.sequence_ = none := by
    cases hlook : map_find (remove_connection
      (notify_query_work self json_rpc service_send connection method 5 parameters).1
      connection).correlations_ self.sequence_ with
    | none => rfl
    | some entry =>
      have hold := remove_connection_only_removes _ connection self.sequence_ entry hlook
      rw [hstate] at hold
      have hset : map_find (map_set self.correlations_ self.sequence_ (connection, 5))
          self.sequence_ = some (connection, 5) := map_find_set_self _ _ _
      have hentry : entry = (connection, 5) := Option.some.inj (hold.symm.trans hset)
      rw [hentry] at hlook
      exact absurd hlook (hsent.2 self.sequence_ 5)
  simp [run, hnone]

/-- Witness for C10: the sample bridge takes request id 5 on connection 1, the
connection closes, and the reply for sequence number 0 is dropped. -/
theorem remove_connection_complete_witness :
    reachable sample_socket ∧
    map_find (remove_connection sample_socket 1).work_ 1 = none ∧
    (run (remove_connection
        (notify_query_work sample_socket all_websocket bus_up 1 "ping" 5 "a").1 1)
      all_websocket first_byte_reader 0 [0, 42]).2.1 = [] :=
  have hreach : reachable sample_socket :=
    reachable.add_connection _ 1 (reachable.init sample_handlers sample_handlers) rfl
  have h := remove_connection_complete sample_socket 1 hreach
  ⟨hreach, h.1,
    congrArg (fun result => result.2.1)
      (h.2.2 all_websocket all_websocket bus_up "ping" "a" ping_handler [] [0]
        first_byte_reader [0, 42] (List.cons_ne_nil _ _) (List.cons_ne_nil _ _) rfl rfl rfl
        rfl).1⟩

/-- C11 (evaluation): connections 1 and 2 are accepted, the request `fetch`
(id 3) on connection 1 fails to encode, and the request `ping` (id 7) on
connection 2 is sent under sequence number 0. In that reachable state
`correlations[0] = (2, 7)`, and `remove_connection(1)` deletes this entry of
connection 2 while the work item `work[2][7]` stays. -/
theorem remove_connection_erases_foreign_correlation :
    reachable crossed_socket ∧
    map_find crossed_socket.correlations_ 0 = some (2, 7) ∧
    map_find (remove_connection crossed_socket 1).correlations_ 0 = none ∧
    map_find (remove_connection crossed_socket 1).work_ 2 =
      some [(7, { id := 7, correlation_id := 0, connection := 2, command := "ping",
                  arguments := "x" })] := by
  refine ⟨?_, by decide, by decide, by decide⟩
  exact reachable.notify_query_work _ all_websocket bus_up 2 "ping" 7 "x"
    (reachable.notify_query_work _ all_websocket bus_up 1 "fetch" 3 "a"
      (reachable.add_connection _ 2
        (reachable.add_connection _ 1 (reachable.init sample_handlers sample_handlers) rfl)
        rfl))

/-! ## Buffered writes -/

/-- C12: for a message of length `n <= 2^31 - 1`, with `h` the text frame header
on a websocket connection and empty otherwise: when buffer, header and
message together stay within 2 MiB the buffer afterwards is the old buffer,
then `h`, then the message; otherwise the buffer is unchanged. `write`
returns `n` in both cases. -/
theorem write_postcondition (self : connection) (data : List Nat)
    (hlength : data.length ≤ 2 ^ 31 - 1) :
    (self.write_buffer_.length +
        (if self.websocket_ then to_header data.length websocket_op_text else []).length +
        data.length ≤ 2097152 →
      (self.write data).1.write_buffer_ =
        self.write_buffer_ ++
          (if self.websocket_ then to_header data.length websocket_op_text else []) ++ data) ∧
    (self.write_buffer_.length +
        (if self.websocket_ then to_header data.length websocket_op_text else []).length +
        data.length > 2097152 →
      (self.write data).1.write_buffer_ = self.write_buffer_) ∧
    (self.write data).2 = (data.length : Int) := by
  have hfits : ¬ data.length > max_int32 := by
    simp only [max_int32]
    omega
  refine ⟨?_, ?_, ?_⟩
  · intro hroom
    have hwater : ¬ self.write_buffer_.length +
        (if self.websocket_ then to_header data.length websocket_op_text else []).length +
        data.length > high_water_mark := by
      simp only [high_water_mark]
      omega
    simp only [connection.write, hfits, hwater, if_false]
  · intro hfull
    have hwater : self.write_buffer_.length +
        (if self.websocket_ then to_header data.length websocket_op_text else []).length +
        data.length > high_water_mark := by
      simp only [high_water_mark]
      omega
    simp only [connection.write, hfits, hwater, if_false, if_true]
  · unfold connection.write
    simp only [hfits, if_false, apply_ite Prod.snd, ite_self]

/-- Witness for C12: a two-byte message on a fresh plain connection. -/
theorem write_postcondition_witness :
    (fresh_connection.write [104, 105]).1.write_buffer_ = [104, 105] ∧
    (fresh_connection.write [104, 105]).2 = 2 :=
  have h := write_postcondition fresh_connection [104, 105] (by decide)
  ⟨h.1 (by decide), h.2.2⟩

theorem write_within_high_water (self : connection) (data : List Nat)
    (hbound : self.write_buffer_.length ≤ high_water_mark) :
    (self.write data).1.write_buffer_.length ≤ high_water_mark := by
  by_cases hlong : data.length > max_int32
  · simp only [connection.write, hlong, if_true]
    exact hbound
  · by_cases hfull : self.write_buffer_.length +
        (if self.websocket_ then to_header data.length websocket_op_text else []).length +
        data.length > high_water_mark
    · simp only [connection.write, hlong, hfull, if_true, if_false]
      exact hbound
    · simp only [connection.write, hlong, hfull, if_false, List.length_append]
      omega

theorem write_all_within_high_water (calls : List (Bool × List Nat)) (self : connection)
    (hbound : self.write_buffer_.length ≤ high_water_mark) :
    (write_all self calls).write_buffer_.length ≤ high_water_mark := by
  induction calls generalizing self with
  | nil => exact hbound
  | cons call calls ih =>
    exact ih _ (write_within_high_water { self with websocket_ := call.1 } call.2 hbound)

/-- C13: starting from an empty write buffer, after any run of `write` calls
(any messages, websocket flag on or off at each call) at most 2 MiB are
buffered, hence at most 2 MiB plus one frame header plus one message. -/
theorem write_buffer_high_water (self : connection) (calls : List (Bool × List Nat))
    (hempty : self.write_buffer_ = []) :
    (write_all self calls).write_buffer_.length ≤ 2097152 ∧
    ∀ header message : List Nat,
      (write_all self calls).write_buffer_.length ≤ 2097152 + header.length + message.length := by
  have hbound := write_all_within_high_water calls self
    (by rw [hempty]; exact Nat.zero_le _)
  have hmark : high_water_mark = 2097152 := by decide
  rw [hmark] at hbound
  exact ⟨hbound, fun header message => by omega⟩

/-- Witness for C13: two writes on a fresh connection, one plain and one framed. -/
theorem write_buffer_high_water_witness :
    fresh_connection.write_buffer_ = [] ∧
    (write_all fresh_connection [(false, [1, 2]), (true, [3])]).write_buffer_.length ≤ 2097152 :=
  ⟨rfl, (write_buffer_high_water fresh_connection [(false, [1, 2]), (true, [3])] rfl).1⟩

/-- C14 (counterexample): a write of one byte on a websocket connection in state
`closed` with an empty buffer leaves the framed message in the buffer. -/
theorem write_on_closed_connection_buffers :
    closed_connection.state_ = connection_state.closed ∧
    closed_connection.write_buffer_ = [] ∧
    (closed_connection.write [7]).1.write_buffer_ = [129, 1, 7] := by
  decide

/-- C14 (amended): `connection::write` neither consults nor changes the state
of the connection: in every state, `closed` included, it returns the same
value and leaves the same buffer as on the same connection in any other state. -/
theorem write_ignores_state (self : connection) (state : connection_state) (data : List Nat) :
    ({ self with state_ := state }.write data).1.write_buffer_ =
      (self.write data).1.write_buffer_ ∧
    ({ self with state_ := state }.write data).2 = (self.write data).2 ∧
    ({ self with state_ := state }.write data).1.state_ = state := by
  by_cases hlong : data.length > max_int32
  · simp only [connection.write, hlong, if_true, and_self]
  · by_cases hfull : self.write_buffer_.length +
        (if self.websocket_ then to_header data.length websocket_op_text else []).length +
        data.length > high_water_mark
    · simp only [connection.write, hlong, hfull, if_true, if_false, and_self]
    · simp only [connection.write, hlong, hfull, if_false, and_self]

/-! ## Frame headers -/

theorem from_big_endian_append (bytes : List Nat) (byte : Nat) :
    from_big_endian (bytes ++ [byte]) = from_big_endian bytes * 256 + byte := by
  simp [from_big_endian, List.foldl_append]

theorem from_to_big_endian (width value : Nat) :
    from_big_endian (to_big_endian width value) = value % 256 ^ width := by
  induction width generalizing value with
  | zero => simp [to_big_endian, from_big_endian, Nat.mod_one]
  | succ width ih =>
    rw [to_big_endian, from_big_endian_append, ih, Nat.pow_succ, Nat.mul_comm (256 ^ width) 256,
      Nat.mod_mul]
    omega

theorem to_big_endian_length (width value : Nat) :
    (to_big_endian width value).length = width := by
  induction width generalizing value with
  | zero => rfl
  | succ width ih => simp [to_big_endian, ih]

theorem mask_bit_set : ∀ second, second < 128 →
    ((second ||| 128) &&& 128 = 128) ∧ ((second ||| 128) &&& 127 = second) := by
  decide

/-- C15 (evaluation): for the payload length 65535 and the text opcode
`to_header` yields the ten-byte header with length code `0x7f` and the length
as 64-bit big-endian, not the four-byte header with code `0x7e`; the lengths
125, 126 and 65536 give headers of 2, 4 and 10 bytes. -/
theorem to_header_at_65535 :
    to_header 65535 websocket_op_text = [129, 127, 0, 0, 0, 0, 0, 0, 255, 255] ∧
    (to_header 65535 websocket_op_text).length = 10 ∧
    to_header 65534 websocket_op_text = [129, 126, 255, 254] ∧
    (to_header 125 websocket_op_text).length = 2 ∧
    (to_header 126 websocket_op_text).length = 4 ∧
    (to_header 65536 websocket_op_text).length = 10 := by
  decide

/-- C16: an input of fewer than two bytes, or one whose second byte has bit 7
clear, decodes to an invalid frame with header, data and mask length 0. -/
theorem construct_rejects (data : List Nat)
    (hreject : data.length < 2 ∨ (data.getD 1 0 &&& 0x80) = 0) :
    (websocket_frame.construct data).valid = false ∧
    (websocket_frame.construct data).header_length = 0 ∧
    (websocket_frame.construct data).data_length = 0 ∧
    (websocket_frame.construct data).mask_length = 0 := by
  have hcond : (decide (data.length < 2) || (data.getD 1 0 &&& 0x80) == 0) = true := by
    rcases hreject with h | h
    · simp [h]
    · rw [h]
      simp
  have hframe : websocket_frame.construct data =
      { valid_ := false, flags_ := 0, header_ := 0, data_ := 0 } := by
    unfold websocket_frame.construct from_data
    rw [if_pos hcond]
  rw [hframe]
  exact ⟨rfl, rfl, rfl, rfl⟩

/-- Witness for C16: an unmasked two-byte text frame header. -/
theorem construct_rejects_witness :
    (websocket_frame.construct [129, 5]).valid = false ∧
    (websocket_frame.construct [129, 5]).data_length = 0 :=
  have h := construct_rejects [129, 5] (Or.inr (by decide))
  ⟨h.1, h.2.2.1⟩


theorem from_big_endian_two (data : List Nat) (h : 4 ≤ data.length) :
    from_big_endian ((data.drop 2).take 2) = data.getD 2 0 * 256 + data.getD 3 0 := by
  rcases data with _ | ⟨d0, _ | ⟨d1, _ | ⟨d2, _ | ⟨d3, rest⟩⟩⟩⟩ <;>
    simp [from_big_endian] at h ⊢

theorem from_big_endian_eight (data : List Nat) (h : 10 ≤ data.length) :
    from_big_endian ((data.drop 2).take 8) =
      data.getD 2 0 * 256 ^ 7 + data.getD 3 0 * 256 ^ 6 + data.getD 4 0 * 256 ^ 5 +
      data.getD 5 0 * 256 ^ 4 + data.getD 6 0 * 256 ^ 3 + data.getD 7 0 * 256 ^ 2 +
      data.getD 8 0 * 256 + data.getD 9 0 := by
  rcases data with _ | ⟨d0, _ | ⟨d1, _ | ⟨d2, _ | ⟨d3, _ | ⟨d4, _ | ⟨d5, _ | ⟨d6, _ | ⟨d7,
    _ | ⟨d8, _ | ⟨d9, rest⟩⟩⟩⟩⟩⟩⟩⟩⟩⟩ <;>
    simp [from_big_endian] at h ⊢
  ring

theorem construct_of_masked (data : List Nat) (hlen : 2 ≤ data.length)
    (hmask : (data.getD 1 0 &&& 0x80) ≠ 0) :
    websocket_frame.construct data =
      { (if decide (data.length ≥ mask_) && decide (data.getD 1 0 &&& 0x7f < 0x7e) then
          ({ valid_ := false, flags_ := data.getD 0 0, header_ := prefix_size + mask_,
             data_ := data.getD 1 0 &&& 0x7f } : websocket_frame)
        else if decide (data.length ≥ prefix16 + mask_) &&
            decide (data.getD 1 0 &&& 0x7f = 0x7e) then
          { valid_ := false, flags_ := data.getD 0 0, header_ := prefix16 + mask_,
            data_ := from_big_endian ((data.drop prefix_size).take 2) }
        else if data.length ≥ prefix64 + mask_ then
          { valid_ := false, flags_ := data.getD 0 0, header_ := prefix64 + mask_,
            data_ := from_big_endian ((data.drop prefix_size).take 8) }
        else { valid_ := false, flags_ := data.getD 0 0, header_ := 0, data_ := 0 }) with
        valid_ := true } := by
  have hcond : ¬ ((decide (data.length < 2) || (data.getD 1 0 &&& 0x80) == 0) = true) := by
    intro h
    rcases Bool.or_eq_true _ _ ▸ h with h1 | h1
    · have := of_decide_eq_true h1
      omega
    · exact hmask (beq_iff_eq.mp h1)
  unfold websocket_frame.construct from_data
  rw [if_neg hcond]

/-- C18: for an input whose second byte has bit 7 set and carries the 7-bit
length code `n`: with `n < 126` and at least 6 bytes, `data_length = n` and
`header_length = 6`; with `n = 126` and at least 8 bytes, `data_length` is the
16-bit big-endian value of bytes 2..3 and `header_length = 8`; with `n = 127`
and at least 14 bytes, `data_length` is the 64-bit big-endian value of bytes
2..9 and `header_length = 14`. In each case the frame is valid with
`mask_length = 4`. -/
theorem construct_lengths (data : List Nat) (hmask : (data.getD 1 0 &&& 0x80) ≠ 0) :
    ((data.getD 1 0 &&& 0x7f) < 126 → 6 ≤ data.length →
      (websocket_frame.construct data).data_length = (data.getD 1 0 &&& 0x7f) ∧
      (websocket_frame.construct data).header_length = 6 ∧
      (websocket_frame.construct data).valid = true ∧
      (websocket_frame.construct data).mask_length = 4) ∧
    ((data.getD 1 0 &&& 0x7f) = 126 → 8 ≤ data.length →
      (websocket_frame.construct data).data_length = data.getD 2 0 * 256 + data.getD 3 0 ∧
      (websocket_frame.construct data).header_length = 8 ∧
      (websocket_frame.construct data).valid = true ∧
      (websocket_frame.construct data).mask_length = 4) ∧
    ((data.getD 1 0 &&& 0x7f) = 127 → 14 ≤ data.length →
      (websocket_frame.construct data).data_length =
        data.getD 2 0 * 256 ^ 7 + data.getD 3 0 * 256 ^ 6 + data.getD 4 0 * 256 ^ 5 +
        data.getD 5 0 * 256 ^ 4 + data.getD 6 0 * 256 ^ 3 + data.getD 7 0 * 256 ^ 2 +
        data.getD 8 0 * 256 + data.getD 9 0 ∧
      (websocket_frame.construct data).header_length = 14 ∧
      (websocket_frame.construct data).valid = true ∧
      (websocket_frame.construct data).mask_length = 4) := by
  refine ⟨?_, ?_, ?_⟩
  · intro hcode hlen
    have hfirst : (decide (data.length ≥ mask_) &&
        decide (data.getD 1 0 &&& 0x7f < 0x7e)) = true := by
      rw [Bool.and_eq_true]
      exact ⟨decide_eq_true (by simp only [mask_]; omega), decide_eq_true hcode⟩
    rw [construct_of_masked data (by omega) hmask, if_pos hfirst]
    exact ⟨rfl, rfl, rfl, rfl⟩
  · intro hcode hlen
    have hfirst : ¬ ((decide (data.length ≥ mask_) &&
        decide (data.getD 1 0 &&& 0x7f < 0x7e)) = true) := by
      rw [Bool.and_eq_true]
      rintro ⟨_, h⟩
      have := of_decide_eq_true h
      omega
    have hsecond : (decide (data.length ≥ prefix16 + mask_) &&
        decide (data.getD 1 0 &&& 0x7f = 0x7e)) = true := by
      rw [Bool.and_eq_true]
      exact ⟨decide_eq_true (by simp only [prefix16, prefix_size, mask_]; omega),
        decide_eq_true hcode⟩
    rw [construct_of_masked data (by omega) hmask, if_neg hfirst, if_pos hsecond]
    exact ⟨from_big_endian_two data (by omega), rfl, rfl, rfl⟩
  · intro hcode hlen
    have hfirst : ¬ ((decide (data.length ≥ mask_) &&
        decide (data.getD 1 0 &&& 0x7f < 0x7e)) = true) := by
      rw [Bool.and_eq_true]
      rintro ⟨_, h⟩
      have := of_decide_eq_true h
      omega
    have hsecond : ¬ ((decide (data.length ≥ prefix16 + mask_) &&
        decide (data.getD 1 0 &&& 0x7f = 0x7e)) = true) := by
      rw [Bool.and_eq_true]
      rintro ⟨_, h⟩
      have := of_decide_eq_true h
      omega
    have hthird : data.length ≥ prefix64 + mask_ := by
      simp only [prefix64, prefix_size, mask_]
      omega
    rw [construct_of_masked data (by omega) hmask, if_neg hfirst, if_neg hsecond,
      if_pos hthird]
    exact ⟨from_big_endian_eight data (by omega), rfl, rfl, rfl⟩

/-- Witness for C18: a masked frame header announcing 300 bytes of payload. -/
theorem construct_lengths_witness :
    (websocket_frame.construct [129, 254, 1, 44, 9, 9, 9, 9]).data_length = 300 ∧
    (websocket_frame.construct [129, 254, 1, 44, 9, 9, 9, 9]).header_length = 8 :=
  have h := (construct_lengths [129, 254, 1, 44, 9, 9, 9, 9] (by decide)).2.1 (by decide)
    (by decide)
  ⟨h.1, h.2.1⟩


theorem construct_masked_header (length code : Nat) (key : List Nat)
    (hsize : length < 2 ^ 64) (hkey : key.length = 4) :
    websocket_frame.construct (masked (to_header length code) key) =
      { valid_ := true, flags_ := 0x80 ||| (code % 256),
        header_ := (to_header length code).length + 4, data_ := length } := by
  by_cases hsmall : length < 0x7e
  · have hbits := mask_bit_set length (by omega)
    have hmod : length % 256 = length := Nat.mod_eq_of_lt (by omega)
    have hdata : masked (to_header length code) key =
        (0x80 ||| (code % 256)) :: (length ||| 0x80) :: key := by
      simp [to_header, hsmall, masked, hmod]
    have hfirst : (decide (((0x80 ||| (code % 256)) :: (length ||| 0x80) :: key).length ≥ mask_) &&
        decide ((((0x80 ||| (code % 256)) :: (length ||| 0x80) :: key).getD 1 0 &&& 0x7f) < 0x7e))
        = true := by
      rw [Bool.and_eq_true]
      refine ⟨decide_eq_true ?_, decide_eq_true ?_⟩
      · simp [mask_, hkey]
      · show ((length ||| 128) &&& 127) < 126
        rw [hbits.2]; exact hsmall
    rw [hdata, construct_of_masked _ (by simp) (by
      show ((length ||| 128) &&& 128) ≠ 0
      rw [hbits.1]; decide), if_pos hfirst]
    have hlen : (to_header length code).length = 2 := by simp [to_header, hsmall]
    rw [hlen]
    show ({ valid_ := true, flags_ := _, header_ := _, data_ := (length ||| 128) &&& 127 }
      : websocket_frame) = _
    rw [hbits.2]
    rfl
  · by_cases hmid : length < max_uint16
    · have hmid2 : length < 65535 := hmid
      have hdata : masked (to_header length code) key =
          (0x80 ||| (code % 256)) :: 254 :: (to_big_endian 2 (length % 2 ^ 16) ++ key) := by
        simp [to_header, hsmall, hmid, masked]
      have hwidth := to_big_endian_length 2 (length % 2 ^ 16)
      have hfirst : ¬ ((decide (((0x80 ||| (code % 256)) :: 254 ::
          (to_big_endian 2 (length % 2 ^ 16) ++ key)).length ≥ mask_) &&
          decide ((((0x80 ||| (code % 256)) :: 254 ::
            (to_big_endian 2 (length % 2 ^ 16) ++ key)).getD 1 0 &&& 0x7f) < 0x7e)) = true) := by
        rw [Bool.and_eq_true]
        rintro ⟨_, h⟩
        exact absurd (of_decide_eq_true h) (show ¬ ((254 : Nat) &&& 127) < 126 by decide)
      have hsecond : (decide (((0x80 ||| (code % 256)) :: 254 ::
          (to_big_endian 2 (length % 2 ^ 16) ++ key)).length ≥ prefix16 + mask_) &&
          decide ((((0x80 ||| (code % 256)) :: 254 ::
            (to_big_endian 2 (length % 2 ^ 16) ++ key)).getD 1 0 &&& 0x7f) = 0x7e)) = true := by
        rw [Bool.and_eq_true]
        refine ⟨decide_eq_true ?_,
          decide_eq_true (show ((254 : Nat) &&& 127) = 126 by decide)⟩
        simp [prefix16, prefix_size, mask_, hkey, to_big_endian_length]
      have hbit : (((0x80 ||| (code % 256)) :: 254 ::
          (to_big_endian 2 (length % 2 ^ 16) ++ key)).getD 1 0 &&& 0x80) ≠ 0 := by
        show ((254 : Nat) &&& 128) ≠ 0
        decide
      rw [hdata, construct_of_masked _ (by simp) hbit, if_neg hfirst, if_pos hsecond]
      have hlen : (to_header length code).length = 4 := by
        simp [to_header, hsmall, hmid, to_big_endian_length]
      have hvalue : from_big_endian
          ((((0x80 ||| (code % 256)) :: 254 ::
            (to_big_endian 2 (length % 2 ^ 16) ++ key)).drop prefix_size).take 2) = length := by
        show from_big_endian ((to_big_endian 2 (length % 2 ^ 16) ++ key).take 2) = length
        rw [List.take_left' hwidth, from_to_big_endian]
        omega
      rw [hlen]
      show ({ valid_ := true, flags_ := _, header_ := _, data_ := from_big_endian _ }
        : websocket_frame) = _
      rw [hvalue]
      rfl
    · have hdata : masked (to_header length code) key =
          (0x80 ||| (code % 256)) :: 255 :: (to_big_endian 8 (length % 2 ^ 64) ++ key) := by
        simp [to_header, hsmall, hmid, masked]
      have hwidth := to_big_endian_length 8 (length % 2 ^ 64)
      have hfirst : ¬ ((decide (((0x80 ||| (code % 256)) :: 255 ::
          (to_big_endian 8 (length % 2 ^ 64) ++ key)).length ≥ mask_) &&
          decide ((((0x80 ||| (code % 256)) :: 255 ::
            (to_big_endian 8 (length % 2 ^ 64) ++ key)).getD 1 0 &&& 0x7f) < 0x7e)) = true) := by
        rw [Bool.and_eq_true]
        rintro ⟨_, h⟩
        exact absurd (of_decide_eq_true h) (show ¬ ((255 : Nat) &&& 127) < 126 by decide)
      have hsecond : ¬ ((decide (((0x80 ||| (code % 256)) :: 255 ::
          (to_big_endian 8 (length % 2 ^ 64) ++ key)).length ≥ prefix16 + mask_) &&
          decide ((((0x80 ||| (code % 256)) :: 255 ::
            (to_big_endian 8 (length % 2 ^ 64) ++ key)).getD 1 0 &&& 0x7f) = 0x7e)) = true) := by
        rw [Bool.and_eq_true]
        rintro ⟨_, h⟩
        exact absurd (of_decide_eq_true h) (show ¬ ((255 : Nat) &&& 127) = 126 by decide)
      have hthird : ((0x80 ||| (code % 256)) :: 255 ::
          (to_big_endian 8 (length % 2 ^ 64) ++ key)).length ≥ prefix64 + mask_ := by
        simp [prefix64, prefix_size, mask_, hkey, to_big_endian_length]
      have hbit : (((0x80 ||| (code % 256)) :: 255 ::
          (to_big_endian 8 (length % 2 ^ 64) ++ key)).getD 1 0 &&& 0x80) ≠ 0 := by
        show ((255 : Nat) &&& 128) ≠ 0
        decide
      rw [hdata, construct_of_masked _ (by simp) hbit, if_neg hfirst, if_neg hsecond,
        if_pos hthird]
      have hlen : (to_header length code).length = 10 := by
        simp [to_header, hsmall, hmid, to_big_endian_length]
      have hvalue : from_big_endian
          ((((0x80 ||| (code % 256)) :: 255 ::
            (to_big_endian 8 (length % 2 ^ 64) ++ key)).drop prefix_size).take 8) = length := by
        show from_big_endian ((to_big_endian 8 (length % 2 ^ 64) ++ key).take 8) = length
        rw [List.take_left' hwidth, from_to_big_endian]
        omega
      rw [hlen]
      show ({ valid_ := true, flags_ := _, header_ := _, data_ := from_big_endian _ }
        : websocket_frame) = _
      rw [hvalue]
      rfl

theorem construct_unmasked_header (length code : Nat) :
    websocket_frame.construct (to_header length code) =
      { valid_ := false, flags_ := 0, header_ := 0, data_ := 0 } := by
  have hclear : ((to_header length code).getD 1 0 &&& 0x80) = 0 := by
    by_cases hsmall : length < 0x7e
    · have hmod : length % 256 = length := Nat.mod_eq_of_lt (by omega)
      have hbit : ∀ second, second < 126 → second &&& 128 = 0 := by decide
      simp [to_header, hsmall, hmod]
      exact hbit length hsmall
    · by_cases hmid : length < max_uint16
      · simp [to_header, hsmall, hmid]
        decide
      · simp [to_header, hsmall, hmid]
        decide
  have hcond : (decide ((to_header length code).length < 2) ||
      ((to_header length code).getD 1 0 &&& 0x80) == 0) = true := by
    rw [hclear]
    simp
  unfold websocket_frame.construct from_data
  rw [if_pos hcond]
/-- C17 (counterexample): the header produced for length 1 decodes to an
invalid frame whose `data_length` is 0, not 1. -/
theorem header_round_trip_fails :
    to_header 1 websocket_op_text = [129, 1] ∧
    (websocket_frame.construct (to_header 1 websocket_op_text)).valid = false ∧
    (websocket_frame.construct (to_header 1 websocket_op_text)).data_length = 0 ∧
    (websocket_frame.construct (to_header 1 websocket_op_text)).data_length ≠ 1 := by
  decide

/-- C17 (amended): for every length `L < 2^64`, the bytes of `to_header(L, text)`
with bit 7 of the second byte set and a four-byte masking key appended decode
to a valid frame whose `data_length` equals `L`; the bytes of
`to_header(L, text)` as produced (unmasked) decode to an invalid frame with
`data_length` 0. -/
theorem header_round_trip_masked (length : Nat) (key : List Nat)
    (hsize : length < 2 ^ 64) (hkey : key.length = 4) :
    (websocket_frame.construct
      (masked (to_header length websocket_op_text) key)).valid = true ∧
    (websocket_frame.construct
      (masked (to_header length websocket_op_text) key)).data_length = length ∧
    (websocket_frame.construct (to_header length websocket_op_text)).valid = false ∧
    (websocket_frame.construct (to_header length websocket_op_text)).data_length = 0 := by
  rw [construct_masked_header length websocket_op_text key hsize hkey,
    construct_unmasked_header length websocket_op_text]
  exact ⟨rfl, rfl, rfl, rfl⟩

/-- Witness for C17: the masked header for a payload of 65535 bytes. -/
theorem header_round_trip_masked_witness :
    (websocket_frame.construct
      (masked (to_header 65535 websocket_op_text) [1, 2, 3, 4])).data_length = 65535 :=
  (header_round_trip_masked 65535 [1, 2, 3, 4] (by decide) rfl).2.1

/-! ## Request parsing -/

theorem split_ne_nil (is_delimiter : Char → Bool) (s : std_string) :
    split is_delimiter s ≠ [] := by
  cases s with
  | nil => simp [split]
  | cons c rest =>
    unfold split
    split
    · simp
    · split <;> simp

theorem split_length (is_delimiter : Char → Bool) (s : std_string) :
    (split is_delimiter s).length = s.countP is_delimiter + 1 := by
  induction s with
  | nil => simp [split]
  | cons c rest ih =>
    unfold split
    by_cases hc : is_delimiter c = true
    · simp [hc, ih]
    · have hne := split_ne_nil is_delimiter rest
      cases hsplit : split is_delimiter rest with
      | nil => exact absurd hsplit hne
      | cons token others =>
        rw [hsplit] at ih
        simp [hc] at ih ⊢
        omega

theorem split_plain (is_delimiter : Char → Bool) (s : std_string)
    (hplain : ∀ c ∈ s, is_delimiter c = false) : split is_delimiter s = [s] := by
  induction s with
  | nil => rfl
  | cons c rest ih =>
    have hrest := ih (fun d hd => hplain d (List.mem_cons_of_mem _ hd))
    have hc := hplain c (List.mem_cons_self _ _)
    simp [split, hc, hrest]

theorem split_at_delimiter (is_delimiter : Char → Bool) (first rest : std_string)
    (d : Char) (hplain : ∀ c ∈ first, is_delimiter c = false) (hd : is_delimiter d = true) :
    split is_delimiter (first ++ d :: rest) = first :: split is_delimiter rest := by
  induction first with
  | nil => simp [split, hd]
  | cons c more ih =>
    have hmore := ih (fun x hx => hplain x (List.mem_cons_of_mem _ hx))
    have hc := hplain c (List.mem_cons_self _ _)
    simp [split, hc, hmore]

theorem split_first_delimiter (is_delimiter : Char → Bool) (s : std_string) :
    (∀ c ∈ s, is_delimiter c = false) ∨
    ∃ first d rest, s = first ++ d :: rest ∧ (∀ c ∈ first, is_delimiter c = false) ∧
      is_delimiter d = true := by
  induction s with
  | nil => left; intro c hc; cases hc
  | cons c more ih =>
    by_cases hc : is_delimiter c = true
    · right
      exact ⟨[], c, more, rfl, fun x hx => absurd hx (List.not_mem_nil x), hc⟩
    · rcases ih with hplain | ⟨first, d, rest, hs, hplain, hd⟩
      · left
        intro x hx
        rcases List.mem_cons.mp hx with h | h
        · rw [h]; simpa using hc
        · exact hplain x h
      · right
        refine ⟨c :: first, d, rest, by rw [hs]; rfl, ?_, hd⟩
        intro x hx
        rcases List.mem_cons.mp hx with h | h
        · rw [h]; simpa using hc
        · exact hplain x h

theorem parse_request_line_headers (env : externals) (out : http_request)
    (elements : List std_string) : (parse_request_line env out elements).headers = out.headers := by
  unfold parse_request_line
  simp only []
  split <;> rfl

theorem parse_http_rejects (env : externals) (out : http_request) (request : std_string)
    (hbad : string_find request crlf = none ∨
      ∃ position, string_find request crlf = some position ∧
        (split (is_any_of [' ']) (request.take position)).length ≠ 3) :
    parse_http env out request = some (false, { out with message_length := request.length }) := by
  unfold parse_http
  rcases hbad with hnone | ⟨position, hfound, hcount⟩
  · simp only [hnone]
  · simp only [hfound, hcount, ne_eq, not_false_eq_true, if_true]

theorem parse_http_accepts (env : externals) (out : http_request) (request : std_string)
    (position : Nat) (hfound : string_find request crlf = some position)
    (hcount : (split (is_any_of [' ']) (request.take position)).length = 3) :
    parse_http env out request = none ∨
    ∃ result, parse_http env out request = some (true, result) ∧
      result.headers = parse_headers out.headers request := by
  unfold parse_http
  simp only [hfound, hcount, ne_eq, not_true_eq_false, if_false]
  split
  · split
    · exact Or.inl rfl
    · right
      exact ⟨_, rfl, by simp only [parse_request_line_headers]⟩
  · right
    exact ⟨_, rfl, by simp only [parse_request_line_headers]⟩


theorem split_spaces_length (line : std_string) :
    (split (is_any_of [' ']) line).length = line.count ' ' + 1 := by
  rw [split_length]
  congr 1
  unfold List.count
  apply List.countP_congr
  intro c _
  simp [is_any_of]

/-- C19 (counterexample): the request line `GET  /` (two spaces) holds two
tokens, method and target, yet `parse_http` returns true; the request line
`GET / HTTP/1.1 ` (trailing space) holds three tokens, yet `parse_http`
returns false, as it does for the tab-separated request line with the three
tokens `GET`, `/` and `HTTP/1.1`. -/
theorem parse_http_token_count_mismatch :
    (parse_http sample_externals http_request_new "GET  /\r\n".toList).map Prod.fst =
      some true ∧
    string_find "GET  /\r\n".toList crlf = some 6 ∧
    tokens ("GET  /\r\n".toList.take 6) = ["GET".toList, "/".toList] ∧
    (parse_http sample_externals http_request_new "GET / HTTP/1.1 \r\n".toList).map Prod.fst =
      some false ∧
    string_find "GET / HTTP/1.1 \r\n".toList crlf = some 15 ∧
    (tokens ("GET / HTTP/1.1 \r\n".toList.take 15)).length = 3 ∧
    (parse_http sample_externals http_request_new "GET\t/\tHTTP/1.1\r\n".toList).map
      Prod.fst = some false ∧
    tokens ("GET\t/\tHTTP/1.1\r\n".toList.take 14) =
      ["GET".toList, "/".toList, "HTTP/1.1".toList] := by
  decide

/-- C19 (amended): `parse_http` returns false exactly when the request holds no
`"\r\n"` or the text before the first `"\r\n"` does not hold exactly two space
characters (cut at every single space it does not fall into exactly three
pieces, empty ones counted); in every other case, when it returns, it
returns true. -/
theorem parse_http_fails_iff (env : externals) (out : http_request) (request : std_string) :
    ((parse_http env out request).map Prod.fst = some false ↔
      (string_find request crlf = none ∨
        ∃ position, string_find request crlf = some position ∧
          (request.take position).count ' ' ≠ 2)) ∧
    (¬ (string_find request crlf = none ∨
        ∃ position, string_find request crlf = some position ∧
          (request.take position).count ' ' ≠ 2) →
      ∀ result, parse_http env out request = some result → result.1 = true) := by
  have hgood : ¬ (string_find request crlf = none ∨
        ∃ position, string_find request crlf = some position ∧
          (request.take position).count ' ' ≠ 2) →
      ∀ result, parse_http env out request = some result → result.1 = true := by
    intro hcond result hresult
    cases hfound : string_find request crlf with
    | none => exact absurd (Or.inl hfound) hcond
    | some position =>
      have hcount : (split (is_any_of [' ']) (request.take position)).length = 3 := by
        rw [split_spaces_length]
        by_cases htwo : (request.take position).count ' ' = 2
        · rw [htwo]
        · exact absurd (Or.inr ⟨position, hfound, htwo⟩) hcond
      rcases parse_http_accepts env out request position hfound hcount with
        hthrown | ⟨accepted, haccepted, _⟩
      · rw [hthrown] at hresult
        cases hresult
      · rw [haccepted] at hresult
        cases hresult
        rfl
  refine ⟨⟨?_, ?_⟩, hgood⟩
  · intro hfalse
    by_contra hcond
    cases hresult : parse_http env out request with
    | none => rw [hresult] at hfalse; cases hfalse
    | some result =>
      have htrue := hgood hcond result hresult
      rw [hresult] at hfalse
      simp only [Option.map_some', Option.some.injEq] at hfalse
      rw [htrue] at hfalse
      cases hfalse
  · intro hcond
    have hbad : string_find request crlf = none ∨
        ∃ position, string_find request crlf = some position ∧
          (split (is_any_of [' ']) (request.take position)).length ≠ 3 := by
      rcases hcond with hnone | ⟨position, hfound, hcount⟩
      · exact Or.inl hnone
      · refine Or.inr ⟨position, hfound, ?_⟩
        rw [split_spaces_length]
        omega
    rw [parse_http_rejects env out request hbad]
    rfl


/-- Witness for C19: a request line with a doubled space and one with two spaces. -/
theorem parse_http_fails_iff_witness :
    ((parse_http sample_externals http_request_new "GET / HTTP/1.1\r\n".toList).map Prod.fst =
      some false ↔
      (string_find "GET / HTTP/1.1\r\n".toList crlf = none ∨
        ∃ position, string_find "GET / HTTP/1.1\r\n".toList crlf = some position ∧
          ("GET / HTTP/1.1\r\n".toList.take position).count ' ' ≠ 2)) :=
  (parse_http_fails_iff sample_externals http_request_new "GET / HTTP/1.1\r\n".toList).1

theorem colon_plain (s : std_string) (h : ':' ∉ s) : ∀ c ∈ s, is_any_of [':'] c = false := by
  intro c hc
  have hne : c ≠ ':' := fun heq => h (heq ▸ hc)
  simp [is_any_of, hne]

theorem to_lower_sec_websocket_key : to_lower sec_websocket_key = sec_websocket_key := by
  decide

theorem parse_line_stores (headers : string_map) (name value : std_string)
    (hname : ':' ∉ name) (hvalue : ':' ∉ value) :
    parse_line headers (name ++ ':' :: value) =
      map_set headers (to_lower (trim name))
        (if to_lower (trim name) = sec_websocket_key then trim value
          else to_lower (trim value)) := by
  have hsplit : split (is_any_of [':']) (name ++ ':' :: value) = [name, value] := by
    rw [split_at_delimiter _ name value ':' (colon_plain name hname) (by decide),
      split_plain _ value (colon_plain value hvalue)]
  have hline : (name ++ ':' :: value).isEmpty = false := by
    cases name <;> rfl
  unfold parse_line
  simp only [hline, hsplit]
  by_cases hkey : to_lower (trim name) = sec_websocket_key
  · simp [hkey]
  · simp [hkey]

theorem parse_line_keeps (headers : string_map) (line name : std_string)
    (hother : ∀ first rest, line = first ++ ':' :: rest → ':' ∉ first →
      to_lower (trim first) ≠ name) :
    map_find (parse_line headers line) name = map_find headers name := by
  rcases split_first_delimiter (is_any_of [':']) line with hplain | ⟨first, d, rest, hline, hplain, hd⟩
  · have hsplit := split_plain _ line hplain
    unfold parse_line
    simp [hsplit]
  · have hcolon : d = ':' := by simpa [is_any_of] using hd
    subst hcolon
    have hfirst : ':' ∉ first := by
      intro hmem
      have := hplain ':' hmem
      simp [is_any_of] at this
    have hne : name ≠ to_lower (trim first) := fun h => hother first rest hline hfirst h.symm
    have hsplit := split_at_delimiter (is_any_of [':']) first rest ':' hplain hd
    rw [← hline] at hsplit
    have hkey : (if trim first ≠ sec_websocket_key then to_lower (trim first) else trim first) =
        to_lower (trim first) := by
      by_cases h : trim first = sec_websocket_key
      · simp [h, to_lower_sec_websocket_key]
      · simp [h]
    unfold parse_line
    simp only [hsplit, List.getD_cons_zero]
    split
    · rfl
    · split
      · exact map_find_set_ne _ _ _ _ hne
      · split
        · rw [hkey]
          exact map_find_set_ne _ _ _ _ hne
        · rfl

theorem parse_lines_keep (lines : List std_string) (headers : string_map) (name : std_string)
    (hother : ∀ line ∈ lines, ∀ first rest, line = first ++ ':' :: rest → ':' ∉ first →
      to_lower (trim first) ≠ name) :
    map_find (lines.foldl parse_line headers) name = map_find headers name := by
  induction lines generalizing headers with
  | nil => rfl
  | cons line lines ih =>
    rw [List.foldl_cons, ih _ (fun l hl => hother l (List.mem_cons_of_mem _ hl))]
    exact parse_line_keeps headers line name (hother line (List.mem_cons_self _ _))

/-- C20: when `parse_http` succeeds, a line `K:V` of the request with exactly one
`:` that is not followed by a later line stored under the same key leaves in
the header map, at key `lowercase(trim(K))`, the value `lowercase(trim(V))`,
or `trim(V)` with its case kept when the key is `sec-websocket-key`. -/
theorem header_line_stored (env : externals) (out result : http_request)
    (request : std_string) (before after : List std_string) (name value : std_string)
    (hparsed : parse_http env out request = some (true, result))
    (hlines : split (is_any_of crlf) request = before ++ [name ++ ':' :: value] ++ after)
    (hname : ':' ∉ name) (hvalue : ':' ∉ value)
    (hlast : ∀ line ∈ after, ∀ first rest, line = first ++ ':' :: rest → ':' ∉ first →
      to_lower (trim first) ≠ to_lower (trim name)) :
    map_find result.headers (to_lower (trim name)) =
      some (if to_lower (trim name) = sec_websocket_key then trim value
        else to_lower (trim value)) := by
  have hheaders : result.headers = parse_headers out.headers request := by
    cases hfound : string_find request crlf with
    | none =>
      rw [parse_http_rejects env out request (Or.inl hfound)] at hparsed
      cases hparsed
    | some position =>
      by_cases hcount : (split (is_any_of [' ']) (request.take position)).length = 3
      · rcases parse_http_accepts env out request position hfound hcount with
          hthrown | ⟨accepted, haccepted, hstored⟩
        · rw [hthrown] at hparsed
          cases hparsed
        · rw [haccepted] at hparsed
          cases hparsed
          exact hstored
      · rw [parse_http_rejects env out request (Or.inr ⟨position, hfound, hcount⟩)] at hparsed
        cases hparsed
  rw [hheaders, parse_headers, hlines, List.foldl_append, List.foldl_append,
    parse_lines_keep after _ _ hlast]
  simp only [List.foldl_cons, List.foldl_nil]
  rw [parse_line_stores _ name value hname hvalue]
  exact map_find_set_self _ _ _


/-- Witness for C20: the line `Host: Example.COM` of the sample request. -/
theorem header_line_stored_witness :
    map_find sample_parsed.headers "host".toList = some "example.com".toList :=
  header_line_stored sample_externals http_request_new sample_parsed sample_request
    ["GET / HTTP/1.1".toList, []] [[], [], [], []] "Host".toList " Example.COM".toList
    rfl (by decide) (by decide) (by decide)
    (by
      intro line hline first rest heq
      have hempty : line = [] := by simpa using hline
      rw [hempty] at heq
      cases first <;> cases heq)


/-! ## Dispatch of replies and events -/

theorem run_returns_true (self : socket) (json_rpc : connection_ptr → Bool)
    (read_error_code : List Nat → code × List Nat) (sequence_ : Nat) (data_ : List Nat) :
    (run self json_rpc read_error_code sequence_ data_).2.2 = true := by
  cases hcorr : map_find self.correlations_ sequence_ with
  | none => simp [run, hcorr]
  | some entry =>
    obtain ⟨connection, id⟩ := entry
    cases hitems : map_find self.work_ connection with
    | none => simp [run, hcorr, hitems]
    | some items =>
      cases hwork : map_find items id with
      | none => simp [run, hcorr, hitems, hwork]
      | some work =>
        exact (run_delivered self json_rpc read_error_code sequence_ data_ connection id items
          work hcorr hitems hwork).2

/-- C28: when a reply is delivered for an outstanding request (correlation and
work item found), a non-zero error code at the start of the payload yields
exactly one effect, the write of the JSON error for the client id (JSON-RPC
envelope on a JSON-RPC connection, plain otherwise), and no `decode`; a zero
error code with the work item's command registered for the connection's kind
yields exactly one effect, that handler's `decode` with the remaining payload,
the client id and the owning connection. In reachable states the connection
of the work item is the connection of the correlation entry. -/
theorem run_dispatch (self : socket) (json_rpc : connection_ptr → Bool)
    (read_error_code : List Nat → code × List Nat) (sequence_ : Nat) (data_ : List Nat)
    (connection : connection_ptr) (id : Nat) (items : query_work_map) (work : query_work_item)
    (hcorr : map_find self.correlations_ sequence_ = some (connection, id))
    (hitems : map_find self.work_ connection = some items)
    (hwork : map_find items id = some work) :
    ((read_error_code data_).1 ≠ code.success →
      (run self json_rpc read_error_code sequence_ data_).2.1 =
        [effect.write work.connection (written.json
          (if json_rpc connection then json_error.rpc_to_json (read_error_code data_).1 id
            else json_error.to_json (read_error_code data_).1 id))]) ∧
    ((read_error_code data_).1 = code.success →
      ∀ found,
        map_find (if json_rpc connection then self.rpc_handlers_ else self.handlers_)
          work.command = some found →
        (run self json_rpc read_error_code sequence_ data_).2.1 =
          [effect.decode (json_rpc connection) work.command (read_error_code data_).2 id
            work.connection]) ∧
    (reachable self → work.connection = connection ∧ work.id = id) := by
  refine ⟨?_, ?_, ?_⟩
  · intro hec
    unfold run
    simp only [hcorr, hitems, hwork, hec, ne_eq, not_false_eq_true, if_true]
    rfl
  · intro hec found hfound
    unfold run
    simp only [hcorr, hitems, hwork, hec, hfound, ne_eq, not_true_eq_false, if_false]
  · intro hreach
    obtain ⟨held, item, h1, h2, h3, h4, _⟩ :=
      reachable_correlation_invariant self hreach sequence_ connection id hcorr
    have e1 : held = items := Option.some.inj (h1.symm.trans hitems)
    subst e1
    have e2 : item = work := Option.some.inj (h2.symm.trans hwork)
    subst e2
    exact ⟨h4, h3⟩

/-- Witness for C28: the reply with error code 5 to the `ping` request with id 7. -/
theorem run_dispatch_witness :
    (run (notify_query_work sample_socket all_json_rpc bus_up 1 "ping" 7 "x").1
      all_json_rpc first_byte_reader 0 [5, 42]).2.1 =
      [effect.write 1 (written.json (json_error.rpc_to_json (code.other 5) 7))] :=
  (run_dispatch (notify_query_work sample_socket all_json_rpc bus_up 1 "ping" 7 "x").1
    all_json_rpc first_byte_reader 0 [5, 42] 1 7
    [(7, new_work_item sample_socket 1 "ping" 7 "x")] (new_work_item sample_socket 1 "ping" 7 "x")
    rfl rfl rfl).1 (by decide)

theorem queued_in_order (tasks queue : List query_response_task) :
    tasks.foldl (fun queued task =>
      queue_response queued task.sequence_ task.data_ task.command_) queue = queue ++ tasks := by
  induction tasks generalizing queue with
  | nil => simp
  | cons task tasks ih =>
    rw [List.foldl_cons, ih]
    simp [queue_response]

theorem run_tasks_runs_all (tasks : List query_response_task) (self : socket)
    (json_rpc : connection_ptr → Bool) (read_error_code : List Nat → code × List Nat) :
    run_tasks self json_rpc read_error_code tasks =
      ((run_in_order self json_rpc read_error_code tasks).1,
        (run_in_order self json_rpc read_error_code tasks).2, true) := by
  induction tasks generalizing self with
  | nil => rfl
  | cons task tasks ih =>
    have htrue := run_returns_true self json_rpc read_error_code task.sequence_ task.data_
    simp only [run_tasks, run_in_order, htrue, Bool.not_true, ih]
    rfl

/-- C29: for tasks queued by `queue_response` in the order `t1..tn`, one call of
`send_query_responses` runs every task once in that order (each on the state
left by the one before, none skipped), leaves the task list empty and
returns true. -/
theorem send_query_responses_runs_all (self : socket) (json_rpc : connection_ptr → Bool)
    (read_error_code : List Nat → code × List Nat) (tasks : List query_response_task) :
    send_query_responses self
      (tasks.foldl (fun queued task =>
        queue_response queued task.sequence_ task.data_ task.command_) [])
      json_rpc read_error_code =
      ((run_in_order self json_rpc read_error_code tasks).1, [],
        (run_in_order self json_rpc read_error_code tasks).2, true) := by
  rw [queued_in_order, List.nil_append]
  unfold send_query_responses
  rw [run_tasks_runs_all]

/-- C30: a `json_rpc` event whose JSON tree has no member `params` makes
`handle_event` write the `bad_request` reply with empty content and return
false; nothing else happens: the work map, the correlation map and the
counter are unchanged and no effect of `notify_query_work` occurs. -/
theorem handle_event_json_rpc_without_params (self : socket) (env : externals)
    (to_uint32 : std_string → Option Nat) (json_rpc : connection_ptr → Bool)
    (service_send : List Nat → code) (connection : connection_ptr) (request : http_request)
    (hparams : request.json_tree.count "params".toList = 0) :
    ∃ state,
      handle_event self env to_uint32 json_rpc service_send connection
        (http_event.json_rpc request) =
        some (state,
          [effect.write connection (written.status_only protocol_status.bad_request)], false) ∧
      state.work_ = self.work_ ∧ state.correlations_ = self.correlations_ ∧
      state.sequence_ = self.sequence_ := by
  refine ⟨self, ?_, rfl, rfl, rfl⟩
  unfold handle_event
  simp only [hparams, if_true]

/-- Witness for C30: a JSON-RPC request with `id` and `method` only. -/
theorem handle_event_json_rpc_without_params_witness :
    ∃ state,
      handle_event sample_socket sample_externals no_uint32 all_json_rpc bus_up 1
        (http_event.json_rpc request_without_params) =
        some (state,
          [effect.write 1 (written.status_only protocol_status.bad_request)], false) ∧
      state.work_ = sample_socket.work_ ∧ state.correlations_ = sample_socket.correlations_ ∧
      state.sequence_ = sample_socket.sequence_ :=
  handle_event_json_rpc_without_params sample_socket sample_externals no_uint32 all_json_rpc
    bus_up 1 request_without_params (by decide)


/-! ## Fields of a parsed request -/

theorem parse_request_line_fields (env : externals) (out : http_request)
    (elements : List std_string) :
    (parse_request_line env out elements).method = to_lower (trim (elements.getD 0 [])) ∧
    (parse_request_line env out elements).protocol = to_lower (trim (elements.getD 2 [])) ∧
    (parse_request_line env out elements).uri =
      (match string_find (trim (elements.getD 1 [])) ['?'] with
        | some cut => (trim (elements.getD 1 [])).take cut
        | none => trim (elements.getD 1 [])) ∧
    (parse_request_line env out elements).protocol_version =
      (match string_find (to_lower (trim (elements.getD 2 []))) ['/'] with
        | some slash => env.strtod ((to_lower (trim (elements.getD 2 []))).drop slash)
        | none => out.protocol_version) ∧
    (parse_request_line env out elements).parameters = out.parameters ∧
    (parse_request_line env out elements).json_rpc = out.json_rpc ∧
    (parse_request_line env out elements).json_tree = out.json_tree := by
  unfold parse_request_line
  simp only []
  cases string_find (to_lower (trim (elements.getD 2 []))) ['/'] <;>
    exact ⟨rfl, rfl, rfl, rfl, rfl, rfl, rfl⟩

theorem parse_http_parsed (env : externals) (out result : http_request)
    (request : std_string)
    (hparsed : parse_http env out request = some (true, result)) :
    ∃ position, string_find request crlf = some position ∧
      (split (is_any_of [' ']) (request.take position)).length = 3 ∧
      result.method =
        to_lower (trim ((split (is_any_of [' ']) (request.take position)).getD 0 [])) ∧
      result.protocol =
        to_lower (trim ((split (is_any_of [' ']) (request.take position)).getD 2 [])) ∧
      result.uri =
        (match string_find
            (trim ((split (is_any_of [' ']) (request.take position)).getD 1 [])) ['?'] with
          | some cut =>
            (trim ((split (is_any_of [' ']) (request.take position)).getD 1 [])).take cut
          | none => trim ((split (is_any_of [' ']) (request.take position)).getD 1 [])) ∧
      result.protocol_version =
        (match string_find result.protocol ['/'] with
          | some slash => env.strtod (result.protocol.drop slash)
          | none => out.protocol_version) ∧
      result.headers = parse_headers out.headers request ∧
      result.parameters = parse_parameters out.parameters (request.take position) ∧
      result.content_length =
        (match map_find result.headers "content-length".toList with
          | some value => env.strtoul value % 2 ^ 64
          | none => 0) ∧
      result.upgrade_request =
        (match map_find result.headers "connection".toList with
          | some value =>
            (string_find value "upgrade".toList).isSome &&
              (map_find result.headers sec_websocket_key).isSome
          | none => false) ∧
      (result.method = "post".toList ∧ result.content_length > 0 →
        ¬ ((request.length + 2 ^ 64 - result.content_length) % 2 ^ 64 > request.length) ∧
        result.json_rpc =
          (env.property_tree out.json_tree
            ((request.drop ((request.length + 2 ^ 64 - result.content_length) % 2 ^ 64)).take
              result.content_length)).1) ∧
      (¬ (result.method = "post".toList ∧ result.content_length > 0) →
        result.json_rpc = out.json_rpc) := by
  cases hfound : string_find request crlf with
  | none =>
    rw [parse_http_rejects env out request (Or.inl hfound)] at hparsed
    cases hparsed
  | some position =>
    by_cases hcount : (split (is_any_of [' ']) (request.take position)).length = 3
    · refine ⟨position, rfl, hcount, ?_⟩
      obtain ⟨f1, f2, f3, f4, f5, f6, f7⟩ := parse_request_line_fields env
        { out with message_length := request.length }
        (split (is_any_of [' ']) (request.take position))
      have f8 := parse_request_line_headers env { out with message_length := request.length }
        (split (is_any_of [' ']) (request.take position))
      unfold parse_http at hparsed
      simp only [hfound, hcount, ne_eq, not_true_eq_false, if_false] at hparsed
      split at hparsed
      · rename_i hpost
        split at hparsed
        · cases hparsed
        · rename_i hstart
          cases hparsed
          simp only [f1, f2, f3, f5, f6, f7, f8] at hpost hstart ⊢
          refine ⟨trivial, trivial, trivial, ?_, trivial, trivial, trivial, trivial,
            fun _ => ⟨hstart, trivial⟩, fun hnot => absurd hpost hnot⟩
          rw [f4]
      · rename_i hpost
        cases hparsed
        simp only [f1, f2, f3, f5, f6, f7, f8] at hpost ⊢
        refine ⟨trivial, trivial, trivial, ?_, trivial, trivial, trivial, trivial,
          fun h => absurd h hpost, fun _ => trivial⟩
        rw [f4]
    · rw [parse_http_rejects env out request (Or.inr ⟨position, hfound, hcount⟩)] at hparsed
      cases hparsed

/-- C21: starting from a request with `json_rpc = false`, after `parse_http`
returns true the flag `json_rpc` is true exactly when the method is `post`,
`content_length > 0` and the last `content_length` bytes of the raw request
parse as JSON; a request without `content-length` header, one with
`content_length = 0` and one whose method is not `post` keep
`json_rpc = false`, as does a request for which `parse_http` returns false. -/
theorem json_rpc_classification (env : externals) (out : http_request) (request : std_string)
    (hfresh : out.json_rpc = false) (hsize : request.length < 2 ^ 64) :
    (∀ result, parse_http env out request = some (true, result) →
      (result.json_rpc = true ↔
        result.method = "post".toList ∧ result.content_length > 0 ∧
        (env.property_tree out.json_tree
          (request.drop (request.length - result.content_length))).1 = true) ∧
      (result.method = "post".toList ∧ result.content_length > 0 →
        result.content_length ≤ request.length) ∧
      (map_find result.headers "content-length".toList = none → result.json_rpc = false) ∧
      (result.content_length = 0 → result.json_rpc = false) ∧
      (result.method ≠ "post".toList → result.json_rpc = false)) ∧
    (∀ rejected, parse_http env out request = some (false, rejected) →
      rejected.json_rpc = false) := by
  have hpow : (2 : Nat) ^ 64 = 18446744073709551616 := by norm_num
  refine ⟨?_, ?_⟩
  · intro result hparsed
    obtain ⟨position, _, _, _, _, _, _, _, _, hlength, _, hpost, hother⟩ :=
      parse_http_parsed env out result request hparsed
    have hbound : result.content_length < 2 ^ 64 := by
      rw [hlength]
      split
      · exact Nat.mod_lt _ (by norm_num)
      · norm_num
    have hfits : result.method = "post".toList ∧ result.content_length > 0 →
        result.content_length ≤ request.length := by
      intro hcase
      obtain ⟨hstart, _⟩ := hpost hcase
      rw [hpow] at hstart hbound hsize
      omega
    have hkey : result.json_rpc = true ↔
        result.method = "post".toList ∧ result.content_length > 0 ∧
        (env.property_tree out.json_tree
          (request.drop (request.length - result.content_length))).1 = true := by
      by_cases hcase : result.method = "post".toList ∧ result.content_length > 0
      · obtain ⟨hstart, hjson⟩ := hpost hcase
        have hinside := hfits hcase
        have hoffset : (request.length + 2 ^ 64 - result.content_length) % 2 ^ 64 =
            request.length - result.content_length := by
          rw [hpow] at hbound hsize ⊢
          omega
        have htake : (request.drop (request.length - result.content_length)).take
            result.content_length = request.drop (request.length - result.content_length) := by
          apply List.take_of_length_le
          rw [List.length_drop]
          omega
        rw [hoffset, htake] at hjson
        rw [hjson]
        exact ⟨fun h => ⟨hcase.1, hcase.2, h⟩, fun h => h.2.2⟩
      · rw [hother hcase, hfresh]
        constructor
        · intro h
          cases h
        · intro h
          exact absurd ⟨h.1, h.2.1⟩ hcase
    refine ⟨hkey, hfits, ?_, ?_, ?_⟩
    · intro habsent
      have hzero : result.content_length = 0 := by rw [hlength, habsent]
      rw [hother (fun h => by omega), hfresh]
    · intro hzero
      rw [hother (fun h => by omega), hfresh]
    · intro hmethod
      rw [hother (fun h => hmethod h.1), hfresh]
  · intro rejected hrejected
    cases hfound : string_find request crlf with
    | none =>
      rw [parse_http_rejects env out request (Or.inl hfound)] at hrejected
      cases hrejected
      exact hfresh
    | some position =>
      by_cases hcount : (split (is_any_of [' ']) (request.take position)).length = 3
      · rcases parse_http_accepts env out request position hfound hcount with
          hthrown | ⟨accepted, haccepted, _⟩
        · rw [hthrown] at hrejected
          cases hrejected
        · rw [haccepted] at hrejected
          cases hrejected
      · rw [parse_http_rejects env out request (Or.inr ⟨position, hfound, hcount⟩)]
          at hrejected
        cases hrejected
        exact hfresh

/-- Witness for C21: a POST request whose three-byte body is taken for JSON. -/
theorem json_rpc_classification_witness :
    post_parsed.json_rpc = true ∧ post_parsed.content_length = 3 ∧
    (post_parsed.json_rpc = true ↔
      post_parsed.method = "post".toList ∧ post_parsed.content_length > 0 ∧
      (decimal_externals.property_tree http_request_new.json_tree
        (post_request.drop (post_request.length - post_parsed.content_length))).1 = true) :=
  ⟨by decide, by decide,
    ((json_rpc_classification decimal_externals http_request_new post_request rfl
      (by decide)).1 post_parsed rfl).1⟩

theorem starts_with_iff (pattern s : std_string) :
    starts_with s pattern = true ↔ ∃ rest, s = pattern ++ rest := by
  induction pattern generalizing s with
  | nil => cases s <;> simp [starts_with]
  | cons p pattern ih =>
    cases s with
    | nil => simp [starts_with]
    | cons c s =>
      simp only [starts_with, Bool.and_eq_true, beq_iff_eq, ih, List.cons_append,
        List.cons.injEq]
      constructor
      · rintro ⟨hc, rest, hs⟩
        exact ⟨rest, hc, hs⟩
      · rintro ⟨rest, hc, hs⟩
        exact ⟨hc, rest, hs⟩

theorem string_find_isSome_iff (pattern s : std_string) :
    (string_find s pattern).isSome = true ↔ ∃ before after, s = before ++ pattern ++ after := by
  induction s with
  | nil =>
    cases pattern with
    | nil => simp [string_find]
    | cons p pattern => simp [string_find]
  | cons c s ih =>
    unfold string_find
    by_cases hstart : starts_with (c :: s) pattern = true
    · simp only [hstart, if_true, Option.isSome_some, true_iff]
      obtain ⟨rest, hrest⟩ := (starts_with_iff pattern (c :: s)).mp hstart
      exact ⟨[], rest, by simpa using hrest⟩
    · simp only [hstart, Bool.false_eq_true, if_false, Option.isSome_map']
      rw [ih]
      constructor
      · rintro ⟨before, after, hs⟩
        exact ⟨c :: before, after, by rw [hs]; rfl⟩
      · rintro ⟨before, after, hs⟩
        cases before with
        | nil =>
          exact absurd ((starts_with_iff pattern (c :: s)).mpr ⟨after, by simpa using hs⟩) hstart
        | cons b before =>
          simp only [List.cons_append, List.cons.injEq] at hs
          exact ⟨before, after, hs.2⟩

/-- C22: after `parse_http` returns true, `upgrade_request` is true exactly
when the header map has a key `connection` whose value contains the text
`upgrade` and has a key `sec-websocket-key`. -/
theorem upgrade_classification (env : externals) (out result : http_request)
    (request : std_string)
    (hparsed : parse_http env out request = some (true, result)) :
    result.upgrade_request = true ↔
      ∃ value, map_find result.headers "connection".toList = some value ∧
        (∃ before after, value = before ++ "upgrade".toList ++ after) ∧
        ∃ key, map_find result.headers "sec-websocket-key".toList = some key := by
  obtain ⟨position, _, _, _, _, _, _, _, _, _, hupgrade, _, _⟩ :=
    parse_http_parsed env out result request hparsed
  rw [hupgrade]
  cases hconnection : map_find result.headers "connection".toList with
  | none => simp
  | some value =>
    simp only [Bool.and_eq_true]
    constructor
    · rintro ⟨hsub, hkey⟩
      exact ⟨value, rfl, (string_find_isSome_iff _ _).mp hsub,
        Option.isSome_iff_exists.mp hkey⟩
    · rintro ⟨found, hfound, hsub, hkey⟩
      cases hfound
      exact ⟨(string_find_isSome_iff _ _).mpr hsub, Option.isSome_iff_exists.mpr hkey⟩

/-- Witness for C22: an upgrade request with both headers. -/
theorem upgrade_classification_witness :
    upgrade_parsed.upgrade_request = true ∧
    (upgrade_parsed.upgrade_request = true ↔
      ∃ value, map_find upgrade_parsed.headers "connection".toList = some value ∧
        (∃ before after, value = before ++ "upgrade".toList ++ after) ∧
        ∃ key, map_find upgrade_parsed.headers "sec-websocket-key".toList = some key) :=
  ⟨by decide,
    upgrade_classification sample_externals http_request_new upgrade_parsed
      upgrade_request_text rfl⟩


/-- C23 (evaluation): for the request line `GET http://host/ HTTP/1.1` followed
by an empty header section `parse_http` returns true and the header map holds
one entry, `get http -> //host/ http/1.1`, made from the request line. -/
theorem request_line_becomes_header :
    (parse_http sample_externals http_request_new
      "GET http://host/ HTTP/1.1\r\n\r\n".toList).map (fun parsed => (parsed.1, parsed.2.headers)) =
      some (true, [("get http".toList, "//host/ http/1.1".toList)]) ∧
    split (is_any_of crlf) "GET http://host/ HTTP/1.1\r\n\r\n".toList =
      ["GET http://host/ HTTP/1.1".toList, [], [], [], []] := by
  decide

theorem decimal_strtod_after_slash : decimal_strtod "1.1".toList = 11 / 10 := by
  have hwhole : ("1.1".toList.dropWhile is_space).takeWhile Char.isDigit = ['1'] := by decide
  have hfraction : (match ("1.1".toList.dropWhile is_space).dropWhile Char.isDigit with
    | '.' :: more => more.takeWhile Char.isDigit
    | _ => []) = ['1'] := by decide
  have hvalue : digits_value ['1'] = 1 := by decide
  unfold decimal_strtod
  simp only [hwhole, hfraction, hvalue]
  norm_num

/-- C24 (evaluation): for the request line `GET / HTTP/1.1` the text handed to
`strtod` is `/1.1`, the protocol from its `/` on, for which no conversion is
possible, so `protocol_version` is 0; the text after the `/` reads as 1.1. -/
theorem protocol_version_reads_from_slash :
    (parse_http decimal_externals http_request_new "GET / HTTP/1.1\r\n\r\n".toList).map
      (fun parsed => (parsed.1, parsed.2.protocol, parsed.2.protocol_version)) =
      some (true, "http/1.1".toList, 0) ∧
    string_find "http/1.1".toList ['/'] = some 4 ∧
    "http/1.1".toList.drop 4 = "/1.1".toList ∧
    decimal_strtod "/1.1".toList = 0 ∧
    decimal_strtod "1.1".toList = 11 / 10 := by
  refine ⟨by decide, by decide, by decide, by decide, decimal_strtod_after_slash⟩

theorem string_find_char_none (d : Char) (s : std_string) (h : string_find s [d] = none) :
    d ∉ s := by
  induction s with
  | nil => exact List.not_mem_nil d
  | cons c s ih =>
    unfold string_find at h
    by_cases hc : c = d
    · subst hc
      simp [starts_with] at h
    · have hstart : starts_with (c :: s) [d] = false := by simp [starts_with, hc]
      simp only [hstart, Bool.false_eq_true, if_false, Option.map_eq_none'] at h
      intro hmem
      rcases List.mem_cons.mp hmem with heq | htail
      · exact hc heq.symm
      · exact ih h htail

theorem string_find_char_some (d : Char) (s : std_string) (position : Nat)
    (h : string_find s [d] = some position) :
    d ∉ s.take position ∧ ∃ tail, s.drop position = d :: tail := by
  induction s generalizing position with
  | nil => simp [string_find] at h
  | cons c s ih =>
    unfold string_find at h
    by_cases hc : c = d
    · subst hc
      have hstart : starts_with (c :: s) [c] = true := by simp [starts_with]
      simp only [hstart, if_true, Option.some.injEq] at h
      subst h
      exact ⟨by simp, s, rfl⟩
    · have hstart : starts_with (c :: s) [d] = false := by simp [starts_with, hc]
      simp only [hstart, Bool.false_eq_true, if_false, Option.map_eq_some'] at h
      obtain ⟨inner, hinner, hposition⟩ := h
      subst hposition
      obtain ⟨hfree, tail, htail⟩ := ih inner hinner
      refine ⟨?_, tail, by simpa using htail⟩
      intro hmem
      rw [List.take_succ_cons] at hmem
      rcases List.mem_cons.mp hmem with heq | hrest
      · exact hc heq.symm
      · exact hfree hrest

theorem string_find_char_first (d : Char) (before after : std_string) (h : d ∉ before) :
    string_find (before ++ d :: after) [d] = some before.length := by
  induction before with
  | nil => simp [string_find, starts_with]
  | cons c before ih =>
    have hc : c ≠ d := fun heq => h (heq ▸ List.mem_cons_self _ _)
    have hrest := ih (fun hmem => h (List.mem_cons_of_mem _ hmem))
    have hstart : starts_with (c :: (before ++ d :: after)) [d] = false := by
      simp [starts_with, hc]
    simp [string_find, hstart, hrest]

theorem string_find_char_absent (d : Char) (s : std_string) (h : d ∉ s) :
    string_find s [d] = none := by
  cases hfound : string_find s [d] with
  | none => rfl
  | some position =>
    obtain ⟨_, tail, htail⟩ := string_find_char_some d s position hfound
    have hmem : d ∈ s.drop position := by rw [htail]; exact List.mem_cons_self _ _
    exact absurd (List.mem_of_mem_drop hmem) h

theorem drop_while_plain (p : Char → Bool) (s : std_string) (h : ∀ c ∈ s, p c = false) :
    s.dropWhile p = s := by
  cases s with
  | nil => rfl
  | cons c s => simp [List.dropWhile_cons, h c (List.mem_cons_self _ _)]

theorem trim_plain (s : std_string) (h : ∀ c ∈ s, is_space c = false) : trim s = s := by
  unfold trim
  rw [drop_while_plain is_space s h,
    drop_while_plain is_space s.reverse (fun c hc => h c (List.mem_reverse.mp hc)),
    List.reverse_reverse]

theorem truncated_at_mark (s : std_string) :
    ∃ rest, s = (match string_find s ['?'] with
        | some cut => s.take cut
        | none => s) ++ rest ∧
      '?' ∉ (match string_find s ['?'] with
        | some cut => s.take cut
        | none => s) ∧
      (rest = [] ∨ ∃ tail, rest = '?' :: tail) := by
  cases hfound : string_find s ['?'] with
  | none =>
    exact ⟨[], by simp, string_find_char_none '?' s hfound, Or.inl rfl⟩
  | some cut =>
    obtain ⟨hfree, tail, htail⟩ := string_find_char_some '?' s cut hfound
    exact ⟨s.drop cut, (List.take_append_drop cut s).symm, hfree, Or.inr ⟨tail, htail⟩⟩

/-- C26 (counterexample): the request line `GET  /` is parsed successfully; its
tokens are `GET` and `/`, yet `uri` is empty and `protocol` is `/`. -/
theorem request_line_fields_mismatch :
    (parse_http sample_externals http_request_new "GET  /\r\n".toList).map
      (fun parsed => (parsed.1, parsed.2.method, parsed.2.uri, parsed.2.protocol)) =
      some (true, "get".toList, [], "/".toList) ∧
    tokens "GET  /".toList = ["GET".toList, "/".toList] := by
  decide

/-- C26 (amended): after `parse_http` returns true, the request line cut at
every space gives three pieces; `method` is the first piece trimmed and
lower-cased, `protocol` the third piece trimmed and lower-cased, and `uri` the
second piece trimmed and truncated at its first `?`, so `uri` holds no `?` and
keeps its letter case. When the request line is three texts free of white
space joined by single spaces, these pieces are the three texts. -/
theorem request_line_fields (env : externals) (out result : http_request)
    (request : std_string)
    (hparsed : parse_http env out request = some (true, result)) :
    ∃ position first second third,
      string_find request crlf = some position ∧
      split (is_any_of [' ']) (request.take position) = [first, second, third] ∧
      result.method = to_lower (trim first) ∧
      result.protocol = to_lower (trim third) ∧
      (∃ rest, trim second = result.uri ++ rest ∧ '?' ∉ result.uri ∧
        (rest = [] ∨ ∃ tail, rest = '?' :: tail)) ∧
      (∀ a b c, request.take position = a ++ ' ' :: (b ++ ' ' :: c) →
        (∀ ch ∈ a, is_space ch = false) → (∀ ch ∈ b, is_space ch = false) →
        (∀ ch ∈ c, is_space ch = false) →
        result.method = to_lower a ∧ result.protocol = to_lower c ∧
        ∃ rest, b = result.uri ++ rest ∧ '?' ∉ result.uri ∧
          (rest = [] ∨ ∃ tail, rest = '?' :: tail)) := by
  obtain ⟨position, hfound, hcount, hmethod, hprotocol, huri, _⟩ :=
    parse_http_parsed env out result request hparsed
  obtain ⟨first, second, third, hpieces⟩ :
      ∃ first second third,
        split (is_any_of [' ']) (request.take position) = [first, second, third] := by
    rcases hsplit : split (is_any_of [' ']) (request.take position) with
      _ | ⟨first, _ | ⟨second, _ | ⟨third, _ | ⟨fourth, more⟩⟩⟩⟩
    all_goals rw [hsplit] at hcount
    all_goals simp at hcount
    exact ⟨first, second, third, rfl⟩
  rw [hpieces] at hmethod hprotocol huri
  simp only [List.getD_cons_zero, List.getD_cons_succ] at hmethod hprotocol huri
  have hcut : ∃ rest, trim second = result.uri ++ rest ∧ '?' ∉ result.uri ∧
      (rest = [] ∨ ∃ tail, rest = '?' :: tail) := by
    rw [huri]
    exact truncated_at_mark (trim second)
  refine ⟨position, first, second, third, hfound, hpieces, hmethod, hprotocol, hcut, ?_⟩
  intro a b c hline ha hb hc
  have hplain : ∀ text : std_string, (∀ ch ∈ text, is_space ch = false) →
      ∀ ch ∈ text, is_any_of [' '] ch = false := by
    intro text htext ch hch
    have hne : ch ≠ ' ' := by
      intro heq
      have := htext ch hch
      rw [heq] at this
      exact absurd this (by decide)
    simp [is_any_of, hne]
  have hcutting : split (is_any_of [' ']) (request.take position) = [a, b, c] := by
    rw [hline, split_at_delimiter _ a _ ' ' (hplain a ha) (by decide),
      split_at_delimiter _ b _ ' ' (hplain b hb) (by decide), split_plain _ c (hplain c hc)]
  rw [hpieces] at hcutting
  simp only [List.cons.injEq, and_true] at hcutting
  obtain ⟨h1, h2, h3⟩ := hcutting
  subst h1
  subst h2
  subst h3
  rw [trim_plain first ha] at hmethod
  rw [trim_plain third hc] at hprotocol
  rw [trim_plain second hb] at hcut
  exact ⟨hmethod, hprotocol, hcut⟩

/-- Witness for C26: the sample request `GET / HTTP/1.1` with a `Host` header. -/
theorem request_line_fields_witness :
    ∃ position first second third,
      string_find sample_request crlf = some position ∧
      split (is_any_of [' ']) (sample_request.take position) = [first, second, third] ∧
      sample_parsed.method = to_lower (trim first) ∧
      sample_parsed.protocol = to_lower (trim third) :=
  have ⟨position, first, second, third, h1, h2, h3, h4, _⟩ :=
    request_line_fields sample_externals http_request_new sample_parsed sample_request rfl
  ⟨position, first, second, third, h1, h2, h3, h4⟩


theorem parse_line_joins (headers : string_map) (name rest : std_string)
    (hname : ':' ∉ name) (hrest : ':' ∈ rest) :
    parse_line headers (name ++ ':' :: rest) =
      map_set headers (to_lower (trim name))
        ([':'].intercalate ((split (is_any_of [':']) rest).map (fun piece =>
          if to_lower (trim name) = sec_websocket_key then trim piece
          else to_lower (trim piece)))) := by
  have hsplit : split (is_any_of [':']) (name ++ ':' :: rest) =
      name :: split (is_any_of [':']) rest :=
    split_at_delimiter _ name rest ':' (colon_plain name hname) (by decide)
  have hmany : 2 ≤ (split (is_any_of [':']) rest).length := by
    rw [split_length]
    have hpos : 0 < rest.countP (is_any_of [':']) :=
      List.countP_pos_iff.mpr ⟨':', hrest, by decide⟩
    omega
  have hline : (name ++ ':' :: rest).isEmpty = false := by
    cases name <;> rfl
  have hkey : (if trim name ≠ sec_websocket_key then to_lower (trim name) else trim name) =
      to_lower (trim name) := by
    by_cases h : trim name = sec_websocket_key
    · simp [h, to_lower_sec_websocket_key]
    · simp [h]
  have hnot : ¬ (split (is_any_of [':']) rest).length + 1 = 2 := by omega
  have hmore : (split (is_any_of [':']) rest).length + 1 > 2 := by omega
  unfold parse_line
  simp only [hline, hsplit, List.length_cons, hnot, hmore, if_false, if_true,
    List.getD_cons_zero, List.tail_cons, hkey, Bool.false_eq_true]
  congr 2
  apply List.map_congr_left
  intro piece _
  by_cases h : to_lower (trim name) = sec_websocket_key
  · simp [h]
  · simp [h]

/-- C27 (counterexample): the header line `X: a : b` is stored as `x -> a:b`;
the whole text after the first `:`, trimmed and lower-cased, is `a : b`. -/
theorem header_value_pieces_trimmed :
    (parse_http sample_externals http_request_new
      "GET / HTTP/1.1\r\nX: a : b\r\n\r\n".toList).map
        (fun parsed => (parsed.1, parsed.2.headers)) =
      some (true, [("x".toList, "a:b".toList)]) ∧
    to_lower (trim " a : b".toList) = "a : b".toList := by
  decide

/-- C27 (amended): when `parse_http` succeeds, a line with more than one `:`
that is not followed by a later line stored under the same key leaves in the
header map, at key `lowercase(trim(text before the first ':'))`, the text
after the first `:` cut at every `:`, each piece trimmed and lower-cased (case
kept when the key is `sec-websocket-key`), the pieces joined again by `:`. -/
theorem header_value_with_colons (env : externals) (out result : http_request)
    (request : std_string) (before after : List std_string) (name rest : std_string)
    (hparsed : parse_http env out request = some (true, result))
    (hlines : split (is_any_of crlf) request = before ++ [name ++ ':' :: rest] ++ after)
    (hname : ':' ∉ name) (hrest : ':' ∈ rest)
    (hlast : ∀ line ∈ after, ∀ first tail, line = first ++ ':' :: tail → ':' ∉ first →
      to_lower (trim first) ≠ to_lower (trim name)) :
    map_find result.headers (to_lower (trim name)) =
      some ([':'].intercalate ((split (is_any_of [':']) rest).map (fun piece =>
        if to_lower (trim name) = sec_websocket_key then trim piece
        else to_lower (trim piece)))) := by
  obtain ⟨position, _, _, _, _, _, _, hheaders, _⟩ :=
    parse_http_parsed env out result request hparsed
  rw [hheaders, parse_headers, hlines, List.foldl_append, List.foldl_append,
    parse_lines_keep after _ _ hlast]
  simp only [List.foldl_cons, List.foldl_nil]
  rw [parse_line_joins _ name rest hname hrest]
  exact map_find_set_self _ _ _

/-- Witness for C27: the line `Host: Example.com:8080` is stored as
`host -> example.com:8080`. -/
theorem header_value_with_colons_witness :
    map_find port_parsed.headers "host".toList = some "example.com:8080".toList :=
  header_value_with_colons sample_externals http_request_new port_parsed port_request
    ["GET / HTTP/1.1".toList, []] [[], [], [], []] "Host".toList " Example.com:8080".toList
    rfl (by decide) (by decide) (by decide)
    (by
      intro line hline first tail heq
      have hempty : line = [] := by simpa using hline
      rw [hempty] at heq
      cases first <;> cases heq)


/-! ## Query parameters -/

theorem parse_parameter_blank (parameters : string_map) (tail : std_string) :
    parse_parameter parameters (' ' :: tail) = parameters := by
  have hfound : string_find (' ' :: tail) [' '] = some 0 := by
    simp [string_find, starts_with]
  unfold parse_parameter
  simp [hfound, split]

theorem parse_parameter_input (parameters : string_map) (line key value : std_string)
    (hline : line.isEmpty = false)
    (hinput : (match string_find line [' '] with
      | none => line
      | some line_end => line.take line_end) = key ++ '=' :: value)
    (hkey : ∀ c ∈ key, c ≠ '=' ∧ is_space c = false)
    (hvalue : ∀ c ∈ value, c ≠ '=' ∧ is_space c = false) :
    parse_parameter parameters line = store_pair parameters (key, value) := by
  have hplain : ∀ text : std_string, (∀ c ∈ text, c ≠ '=' ∧ is_space c = false) →
      ∀ c ∈ text, is_any_of ['=', ' '] c = false := by
    intro text htext c hc
    have hne : c ≠ ' ' := by
      intro heq
      have := (htext c hc).2
      rw [heq] at this
      exact absurd this (by decide)
    simp [is_any_of, (htext c hc).1, hne]
  have hsplit : split (is_any_of ['=', ' ']) (key ++ '=' :: value) = [key, value] := by
    rw [split_at_delimiter _ key value '=' (hplain key hkey) (by decide),
      split_plain _ value (hplain value hvalue)]
  unfold parse_parameter
  simp only [hline, hinput, hsplit, Bool.false_eq_true, if_false, List.length_cons,
    List.length_nil, if_true, List.getD_cons_zero, List.getD_cons_succ]
  rw [trim_plain key (fun c hc => (hkey c hc).2), trim_plain value (fun c hc => (hvalue c hc).2)]
  rfl

theorem parse_parameter_pair (parameters : string_map) (key value : std_string)
    (hkey : ∀ c ∈ key, c ≠ '=' ∧ is_space c = false)
    (hvalue : ∀ c ∈ value, c ≠ '=' ∧ is_space c = false) :
    parse_parameter parameters (key ++ '=' :: value) = store_pair parameters (key, value) := by
  have hspace : ' ' ∉ key ++ '=' :: value := by
    intro hmem
    rcases List.mem_append.mp hmem with h | h
    · exact absurd (hkey ' ' h).2 (by decide)
    · rcases List.mem_cons.mp h with h | h
      · exact absurd h (by decide)
      · exact absurd (hvalue ' ' h).2 (by decide)
  apply parse_parameter_input parameters _ key value (by cases key <;> rfl) _ hkey hvalue
  rw [string_find_char_absent ' ' _ hspace]

theorem parse_parameter_pair_then (parameters : string_map) (key value tail : std_string)
    (hkey : ∀ c ∈ key, c ≠ '=' ∧ is_space c = false)
    (hvalue : ∀ c ∈ value, c ≠ '=' ∧ is_space c = false) :
    parse_parameter parameters (key ++ '=' :: value ++ ' ' :: tail) =
      store_pair parameters (key, value) := by
  have hspace : ' ' ∉ key ++ '=' :: value := by
    intro hmem
    rcases List.mem_append.mp hmem with h | h
    · exact absurd (hkey ' ' h).2 (by decide)
    · rcases List.mem_cons.mp h with h | h
      · exact absurd h (by decide)
      · exact absurd (hvalue ' ' h).2 (by decide)
  apply parse_parameter_input parameters _ key value (by cases key <;> rfl) _ hkey hvalue
  rw [string_find_char_first ' ' (key ++ '=' :: value) tail hspace]
  exact List.take_left' rfl

theorem drop_past (before after : std_string) (d : Char) :
    List.drop (before.length + 1) (before ++ d :: after) = after := by
  induction before with
  | nil => rfl
  | cons c before ih => simp

theorem ampersand_plain (s : std_string) (h : '&' ∉ s) :
    ∀ c ∈ s, is_any_of ['&'] c = false := by
  intro c hc
  have hne : c ≠ '&' := fun heq => h (heq ▸ hc)
  simp [is_any_of, hne]

theorem pair_without_ampersand (key value : std_string)
    (hkey : ∀ c ∈ key, c ≠ '&') (hvalue : ∀ c ∈ value, c ≠ '&') :
    '&' ∉ key ++ '=' :: value := by
  intro hmem
  rcases List.mem_append.mp hmem with h | h
  · exact hkey '&' h rfl
  · rcases List.mem_cons.mp h with h | h
    · exact absurd h (by decide)
    · exact hvalue '&' h rfl

theorem parse_query_pairs (protocol : std_string) (hprotocol : '&' ∉ protocol)
    (pairs : List (std_string × std_string))
    (hpairs : ∀ pair ∈ pairs, ∀ c ∈ pair.1 ++ pair.2,
      c ≠ '=' ∧ c ≠ '&' ∧ c ≠ '?' ∧ c ≠ ':' ∧ is_space c = false)
    (parameters : string_map) :
    (split (is_any_of ['&']) (query_string pairs ++ ' ' :: protocol)).foldl parse_parameter
      parameters = pairs.foldl store_pair parameters := by
  have htail : '&' ∉ ' ' :: protocol := by
    intro hmem
    rcases List.mem_cons.mp hmem with h | h
    · exact absurd h (by decide)
    · exact hprotocol h
  induction pairs generalizing parameters with
  | nil =>
    rw [query_string, List.nil_append, split_plain _ _ (ampersand_plain _ htail)]
    simp only [List.foldl_cons, List.foldl_nil]
    exact parse_parameter_blank parameters protocol
  | cons pair rest ih =>
    have hpair := hpairs pair (List.mem_cons_self _ _)
    have hkey : ∀ c ∈ pair.1, c ≠ '=' ∧ is_space c = false := fun c hc =>
      ⟨(hpair c (List.mem_append_left _ hc)).1, (hpair c (List.mem_append_left _ hc)).2.2.2.2⟩
    have hvalue : ∀ c ∈ pair.2, c ≠ '=' ∧ is_space c = false := fun c hc =>
      ⟨(hpair c (List.mem_append_right _ hc)).1, (hpair c (List.mem_append_right _ hc)).2.2.2.2⟩
    have hclean : '&' ∉ pair.1 ++ '=' :: pair.2 :=
      pair_without_ampersand pair.1 pair.2
        (fun c hc => (hpair c (List.mem_append_left _ hc)).2.1)
        (fun c hc => (hpair c (List.mem_append_right _ hc)).2.1)
    cases rest with
    | nil =>
      have hwhole : '&' ∉ pair.1 ++ '=' :: pair.2 ++ ' ' :: protocol := by
        intro hmem
        rcases List.mem_append.mp hmem with h | h
        · exact hclean h
        · exact htail h
      rw [query_string, split_plain _ _ (ampersand_plain _ hwhole)]
      simp only [List.foldl_cons, List.foldl_nil]
      exact parse_parameter_pair_then parameters pair.1 pair.2 protocol hkey hvalue
    | cons next more =>
      rw [query_string, List.append_assoc, List.cons_append,
        split_at_delimiter _ _ _ '&' (ampersand_plain _ hclean) (by decide)]
      simp only [List.foldl_cons]
      rw [parse_parameter_pair parameters pair.1 pair.2 hkey hvalue]
      exact ih (fun other hother => hpairs other (List.mem_cons_of_mem _ hother)) _

theorem find_after_store (pairs : List (std_string × std_string)) (parameters : string_map)
    (key : std_string) :
    map_find (pairs.foldl store_pair parameters) key =
      match pairs.reverse.find? (fun pair => decide (to_lower pair.1 = key)) with
      | some pair => some (to_lower pair.2)
      | none => map_find parameters key := by
  induction pairs generalizing parameters with
  | nil => rfl
  | cons pair rest ih =>
    rw [List.foldl_cons, ih, List.reverse_cons, List.find?_append]
    cases hlater : rest.reverse.find? (fun other => decide (to_lower other.1 = key)) with
    | some found => rfl
    | none =>
      have hor : (none : Option (std_string × std_string)).or
          ([pair].find? (fun other => decide (to_lower other.1 = key))) =
          [pair].find? (fun other => decide (to_lower other.1 = key)) := rfl
      rw [hor]
      by_cases hkey : to_lower pair.1 = key
      · have hfind : [pair].find? (fun other => decide (to_lower other.1 = key)) =
            some pair := by
          simp [List.find?, hkey]
        rw [hfind]
        subst hkey
        exact map_find_set_self _ _ _
      · have hfind : [pair].find? (fun other => decide (to_lower other.1 = key)) = none := by
          simp [List.find?, hkey]
        rw [hfind]
        exact map_find_set_ne _ _ _ _ (fun h => hkey h.symm)

/-- C25 (counterexample): with the protocol token `H&c=d` the parameter map
receives `c -> d` from the protocol token; with the method `G?T` the
parameter map stays empty although the target is `/p?x=1`. -/
theorem query_parameters_mismatch :
    (parse_http sample_externals http_request_new "GET /p?a=b H&c=d\r\n".toList).map
      (fun parsed => (parsed.1, parsed.2.parameters)) =
      some (true, [("a".toList, "b".toList), ("c".toList, "d".toList)]) ∧
    (parse_http sample_externals http_request_new "G?T /p?x=1 HTTP/1.1\r\n".toList).map
      (fun parsed => (parsed.1, parsed.2.parameters)) = some (true, []) := by
  decide

/-- C25 (amended): when `parse_http` succeeds on an empty parameter map for a
request line `METHOD PATH?k1=v1&...&kn=vn PROTOCOL` in which method and path
hold no `?`, the protocol holds no `&`, and no key or value holds `=`, `&`,
`?`, `:` or white space, the parameter map is exactly
`lowercase(ki) -> lowercase(vi)`, a later duplicate overriding an earlier one;
so nothing of the protocol token reaches a key or a value. -/
theorem query_parameters (env : externals) (out result : http_request)
    (request : std_string) (position : Nat) (method path protocol : std_string)
    (pairs : List (std_string × std_string))
    (hparsed : parse_http env out request = some (true, result))
    (hfound : string_find request crlf = some position)
    (hline : request.take position =
      method ++ ' ' :: path ++ '?' :: (query_string pairs ++ ' ' :: protocol))
    (hmethod : '?' ∉ method) (hpath : '?' ∉ path) (hprotocol : '&' ∉ protocol)
    (hpairs : ∀ pair ∈ pairs, ∀ c ∈ pair.1 ++ pair.2,
      c ≠ '=' ∧ c ≠ '&' ∧ c ≠ '?' ∧ c ≠ ':' ∧ is_space c = false)
    (hempty : out.parameters = []) :
    ∀ key, map_find result.parameters key =
      (pairs.reverse.find? (fun pair => decide (to_lower pair.1 = key))).map
        (fun pair => to_lower pair.2) := by
  intro key
  obtain ⟨found, hposition, _, _, _, _, _, _, hparameters, _⟩ :=
    parse_http_parsed env out result request hparsed
  have hsame : found = position := Option.some.inj (hposition.symm.trans hfound)
  subst hsame
  have hfree : '?' ∉ method ++ ' ' :: path := by
    intro hmem
    rcases List.mem_append.mp hmem with h | h
    · exact hmethod h
    · rcases List.mem_cons.mp h with h | h
      · exact absurd h (by decide)
      · exact hpath h
  have hmark := string_find_char_first '?' (method ++ ' ' :: path)
    (query_string pairs ++ ' ' :: protocol) hfree
  rw [hparameters, hempty, parse_parameters, hline, hmark]
  simp only []
  rw [drop_past, parse_query_pairs protocol hprotocol pairs hpairs, find_after_store]
  cases pairs.reverse.find? (fun pair => decide (to_lower pair.1 = key)) <;> rfl

/-- Witness for C25: the target `/find?Name=Bob&Kind=X`. -/
theorem query_parameters_witness :
    map_find query_parsed.parameters "name".toList = some "bob".toList ∧
    map_find query_parsed.parameters "kind".toList = some "x".toList :=
  have h := query_parameters sample_externals http_request_new query_parsed query_request 34
    "GET".toList "/find".toList "HTTP/1.1".toList
    [("Name".toList, "Bob".toList), ("Kind".toList, "X".toList)]
    rfl (by decide) (by decide) (by decide) (by decide) (by decide) (by decide) rfl
  ⟨h "name".toList, h "kind".toList⟩


/-! ## Masked headers, short frames and unchecked input -/

theorem opcode_bits : ∀ code, code < 16 →
    ((128 ||| code) &&& 15 = code) ∧ ((128 ||| code) &&& 128 = 128) := by
  decide

/-- C31: for every length `L < 2^64` and opcode `op` (a four-bit value), the
bytes of `to_header(L, op)` with bit 7 of the second byte set and four mask-key
bytes appended decode to a valid frame with `data_length = L`,
`header_length = |to_header(L, op)| + 4`, `op_code = op` and `final` true. -/
theorem masked_header_round_trip (length code : Nat) (key : List Nat)
    (hsize : length < 2 ^ 64) (hcode : code < 16) (hkey : key.length = 4) :
    (websocket_frame.construct (masked (to_header length code) key)).valid = true ∧
    (websocket_frame.construct (masked (to_header length code) key)).data_length = length ∧
    (websocket_frame.construct (masked (to_header length code) key)).header_length =
      (to_header length code).length + 4 ∧
    (websocket_frame.construct (masked (to_header length code) key)).op_code = code ∧
    (websocket_frame.construct (masked (to_header length code) key)).final = true := by
  have hbits := opcode_bits code hcode
  have hbyte : code % 256 = code := Nat.mod_eq_of_lt (by omega)
  rw [construct_masked_header length code key hsize hkey]
  refine ⟨rfl, rfl, rfl, ?_, ?_⟩
  · show (128 ||| code % 256) &&& 15 = code
    rw [hbyte]
    exact hbits.1
  · show ((128 ||| code % 256) &&& 128 != 0) = true
    rw [hbyte, hbits.2]
    rfl

/-- Witness for C31: the text opcode at the lengths 125, 126, 65535 and 65536. -/
theorem masked_header_round_trip_witness :
    (websocket_frame.construct
      (masked (to_header 125 websocket_op_text) [1, 2, 3, 4])).header_length = 6 ∧
    (websocket_frame.construct
      (masked (to_header 126 websocket_op_text) [1, 2, 3, 4])).data_length = 126 ∧
    (websocket_frame.construct
      (masked (to_header 65535 websocket_op_text) [1, 2, 3, 4])).data_length = 65535 ∧
    (websocket_frame.construct
      (masked (to_header 65536 websocket_op_text) [1, 2, 3, 4])).op_code = websocket_op_text :=
  ⟨(masked_header_round_trip 125 websocket_op_text [1, 2, 3, 4] (by decide) (by decide)
      rfl).2.2.1,
    (masked_header_round_trip 126 websocket_op_text [1, 2, 3, 4] (by decide) (by decide)
      rfl).2.1,
    (masked_header_round_trip 65535 websocket_op_text [1, 2, 3, 4] (by decide) (by decide)
      rfl).2.1,
    (masked_header_round_trip 65536 websocket_op_text [1, 2, 3, 4] (by decide) (by decide)
      rfl).2.2.2.1⟩

/-- C32 (evaluation): the two bytes `81 85` (mask bit set, length code 5) decode
to a frame reported valid with `header_length` 0; the four bytes `81 85 01 02`
decode to a frame reported valid with `header_length` 6, more than the four
bytes supplied; the four bytes `81 fe 01 2c` (length code 126, no room for the
mask key) decode to a frame reported valid with `header_length` 0. -/
theorem short_frames_reported_valid :
    (websocket_frame.construct [129, 133]).valid = true ∧
    (websocket_frame.construct [129, 133]).header_length = 0 ∧
    (websocket_frame.construct [129, 133, 1, 2]).valid = true ∧
    (websocket_frame.construct [129, 133, 1, 2]).header_length = 6 ∧
    (websocket_frame.construct [129, 254, 1, 44]).valid = true ∧
    (websocket_frame.construct [129, 254, 1, 44]).header_length = 0 := by
  decide

/-- C33 (evaluation): two requests equal up to and including the blank line
that ends the header section, the second with a body of three lines holding
`:`. For the first the header map is `host -> a`, `content_length` 0 and
`upgrade_request` false; for the second the body lines are in the header
map, `content_length` is 7 and `upgrade_request` is true. -/
theorem body_lines_become_headers :
    bodied_request.take bodiless_request.length = bodiless_request ∧
    (parse_http decimal_externals http_request_new bodiless_request).map
      (fun parsed => (parsed.1, parsed.2.headers)) =
      some (true, [("host".toList, "a".toList)]) ∧
    (parse_http decimal_externals http_request_new bodiless_request).map
      (fun parsed => (parsed.2.content_length, parsed.2.upgrade_request)) =
      some (0, false) ∧
    (parse_http decimal_externals http_request_new bodied_request).map
      (fun parsed => (parsed.1, parsed.2.headers)) =
      some (true,
        [("host".toList, "a".toList), ("connection".toList, "upgrade".toList),
          ("sec-websocket-key".toList, "k".toList), ("content-length".toList, "7".toList)]) ∧
    (parse_http decimal_externals http_request_new bodied_request).map
      (fun parsed => (parsed.2.content_length, parsed.2.upgrade_request)) =
      some (7, true) := by
  refine ⟨by decide, by decide, by decide, by decide, by decide⟩

/-- C34 (evaluation): for a POST request of 40 bytes whose `content-length`
header reads 999, the start offset `request.size() - content_length` wraps to
a value beyond the end of the request and `parse_http` does not return: the
body substring throws. -/
theorem oversized_post_throws :
    oversized_post.length = 40 ∧
    map_find (parse_headers [] oversized_post) "content-length".toList = some "999".toList ∧
    decimal_strtoul "999".toList = 999 ∧
    (oversized_post.length + 2 ^ 64 - 999) % 2 ^ 64 > oversized_post.length ∧
    parse_http decimal_externals http_request_new oversized_post = none := by
  refine ⟨by decide, by decide, by decide, by decide, ?_⟩
  rfl

/-- C35 (evaluation): a `websocket_frame` event whose payload parses as JSON
with members `id` and `method` and no member `params` makes `handle_event`
throw from `get_child`, so no value is returned; the `json_rpc` event with the
same tree returns false after writing the `bad_request` reply. -/
theorem websocket_frame_without_params_throws :
    (object_externals.property_tree ptree.empty message_without_params).1 = true ∧
    ptree.count tree_without_params "params".toList = 0 ∧
    (handle_event sample_socket object_externals no_uint32 all_websocket bus_up 1
      (http_event.websocket_frame message_without_params)).isNone = true ∧
    (handle_event sample_socket object_externals no_uint32 all_json_rpc bus_up 1
      (http_event.json_rpc request_without_params)).map (fun handled => handled.2) =
      some ([effect.write 1 (written.status_only protocol_status.bad_request)], false) := by
  decide

end LibbitcoinProtocol
